import Mathlib

/-!
Shallow embedding of the LabVerse conversational agent pipeline
(`src/labverse/agent/`) and proofs about its specified properties.

Conventions used throughout:
- Python strings are Lean `String`s; case-insensitive substring tests are
  performed on `List Char` after ASCII lowering (all data involved is ASCII).
- Python `float` confidence scores are modelled as `ℚ`: every confidence the
  code computes is produced by finite arithmetic on decimal literals, and the
  properties checked here are order/equality comparisons, not rounding facts.
- Calls into external collaborators (the completion service, spaCy, the
  vector store, the filesystem, clocks, uuid generation) are modelled as
  explicit oracle parameters: the embedded repository code is proved correct
  for every behaviour of those collaborators.
- Python exceptions are modelled with `Except`/`Option`; a method that
  mutates an object is a function from the old value to the new one.
- `datetime.now()` bookkeeping fields (`created_at`, `last_activity`,
  `timestamp`) are elided: no verified claim observes them.
-/

namespace LabVerse

/-! ## String helpers (Python `str.lower`, `in`, `strip`) -/

/-- Boolean prefix test on character lists (structural, kernel-reducible). -/
def listHasPrefix : List Char → List Char → Bool
  | [], _ => true
  | _ :: _, [] => false
  | a :: n, b :: h => a = b && listHasPrefix n h

/-- Boolean infix (substring) test on character lists. -/
def listHasInfix (n : List Char) : List Char → Bool
  | [] => n.isEmpty
  | b :: h => listHasPrefix n (b :: h) || listHasInfix n h

/-- ASCII lowering of a string into a character list (Python `s.lower()`;
the repository only handles ASCII file/column names). -/
def lowerStr (s : String) : List Char := s.toList.map Char.toLower

/-- Python `needle.lower() in hay.lower()`. -/
def ciContains (needle hay : String) : Bool :=
  listHasInfix (lowerStr needle) (lowerStr hay)

/-- Python `", ".join(xs)`. -/
def joinComma (xs : List String) : String := String.intercalate ", " xs

/-! ## Entity maps

The pipeline passes entities around as a Python `Dict[str, Any]` whose values
(at the keys the clarifier and retriever read) are lists of strings.  We model
that dictionary as an insertion-ordered association list. -/

/-- A Python `Dict[str, List[str]]` as an insertion-ordered association list. -/
abbrev EntityMap : Type := List (String × List String)

/-- Python `d.get(key, [])`. -/
def EntityMap.getD (m : EntityMap) (k : String) : List String :=
  match m.find? (fun p => p.1 = k) with
  | some p => p.2
  | none => []

/-- Python `{**a, **b}`: right operand wins on key collision, keys of `a`
keep their positions, new keys of `b` are appended in order. -/
def EntityMap.merge (a b : EntityMap) : EntityMap :=
  b.foldl (fun acc p =>
    if acc.any (fun q => q.1 = p.1) then
      acc.map (fun q => if q.1 = p.1 then p else q)
    else acc ++ [p]) a

/-! ## Session model (`src/labverse/agent/session.py`) -/

/-- Context information for a focused file (`FileContext`). -/
structure FileContext where
  file_path : String
  file_name : String
  columns : List String := []
  applied_filters : EntityMap := []
deriving DecidableEq

/-- A single turn in the conversation (`ConversationTurn`).  `turn_id` is
created externally (`uuid.uuid4()`), so it is a parameter of `startNewTurn`;
the `timestamp` field is elided. -/
structure ConversationTurn where
  turn_id : String
  user_query : String
  intent : Option String := none
  entities : EntityMap := []
  clarification_needed : Bool := false
  clarification_question : Option String := none
  ai_response : Option String := none
  code_generated : Option String := none
  execution_result : Option String := none
deriving DecidableEq

/-- User session state (`UserSession`).  The preference/filter fields that no
verified claim reads are kept; timestamps are elided. -/
structure UserSession where
  session_id : String
  conversation_history : List ConversationTurn := []
  current_turn : Option ConversationTurn := none
  focused_files : List (String × FileContext) := []
  global_filters : EntityMap := []
deriving DecidableEq

/-- `UserSession.start_new_turn`: installs a fresh in-flight turn.  `tid` is
the externally generated `uuid4` for the new `ConversationTurn`. -/
def UserSession.startNewTurn (s : UserSession) (tid user_query : String) :
    UserSession :=
  { s with current_turn := some { turn_id := tid, user_query := user_query } }

/-- The completed form of the in-flight turn: `complete_turn` writes the
result fields into `self.current_turn` before appending it to history. -/
def completedTurn (t : ConversationTurn) (intent : String) (entities : EntityMap)
    (ai_response : String) (code_generated execution_result : Option String)
    (clarification_needed : Bool) (clarification_question : Option String) :
    ConversationTurn :=
  { t with
    intent := some intent
    entities := entities
    ai_response := some ai_response
    code_generated := code_generated
    execution_result := execution_result
    clarification_needed := clarification_needed
    clarification_question := clarification_question }

/-- `UserSession.complete_turn`: raises `ValueError` when no turn is in
progress, otherwise appends the completed turn to history and clears the
in-flight marker. -/
def UserSession.completeTurn (s : UserSession) (intent : String)
    (entities : EntityMap) (ai_response : String)
    (code_generated : Option String := none)
    (execution_result : Option String := none)
    (clarification_needed : Bool := false)
    (clarification_question : Option String := none) :
    Except String UserSession :=
  match s.current_turn with
  | none => .error "No active conversation turn"
  | some t =>
      .ok { s with
        conversation_history := s.conversation_history ++
          [completedTurn t intent entities ai_response code_generated
            execution_result clarification_needed clarification_question]
        current_turn := none }

/-- The Python object observed after calling `complete_turn`: when the call
raises, the raise happens before any mutation, so the session is unchanged. -/
def UserSession.afterCompleteTurn (s : UserSession) (intent : String)
    (entities : EntityMap) (ai_response : String)
    (code_generated : Option String := none)
    (execution_result : Option String := none)
    (clarification_needed : Bool := false)
    (clarification_question : Option String := none) : UserSession :=
  match s.completeTurn intent entities ai_response code_generated
      execution_result clarification_needed clarification_question with
  | .ok s2 => s2
  | .error _ => s

/-- The `focused_files` part of `UserSession.get_file_context_summary` (the
only part the clarifier reads). -/
def UserSession.focusedFileSummary (s : UserSession) : List FileContext :=
  s.focused_files.map Prod.snd

/-! ## Intent types (`src/labverse/agent/intent_classifier.py`) -/

/-- The fixed closed set of 11 intents (`IntentType`). -/
inductive IntentType where
  | search_retrieval
  | metadata_query
  | data_visualization
  | statistical_analysis
  | data_cleaning
  | new_dataset_generation
  | file_summary
  | code_generation
  | scientific_question
  | access_permission
  | help_instruction
deriving DecidableEq

/-- The string value of each `IntentType` enum member. -/
def IntentType.value : IntentType → String
  | .search_retrieval => "search_retrieval"
  | .metadata_query => "metadata_query"
  | .data_visualization => "data_visualization"
  | .statistical_analysis => "statistical_analysis"
  | .data_cleaning => "data_cleaning"
  | .new_dataset_generation => "new_dataset_generation"
  | .file_summary => "file_summary"
  | .code_generation => "code_generation"
  | .scientific_question => "scientific_question"
  | .access_permission => "access_permission"
  | .help_instruction => "help_instruction"

/-! ## Clarifier (`src/labverse/agent/clarifier.py`) -/

/-- Status of a clarification check (`ClarificationStatus`). -/
inductive ClarificationStatus where
  | ready
  | clarification_needed
  | ambiguous
deriving DecidableEq

/-- Result of a clarification check (`ClarificationResult`). -/
structure ClarificationResult where
  status : ClarificationStatus
  question : Option String := none
  suggestions : List String := []
  missing_info : List String := []
  confidence : ℚ := 1.0
deriving DecidableEq

/-- The `Clarifier`'s configured registry (its constructor arguments,
mutable via `update_available_files` / `update_file_schemas`). -/
structure ClarifierState where
  available_files : List String := []
  file_schemas : List (String × List String) := []

/-- One check's outcome: `none` when the check passes, otherwise the
`{"missing": ..., "suggestions": ...}` dictionary it reports. -/
structure CheckOutcome where
  missing : List String
  suggestions : List String

/-- `Clarifier._check_file_specification`. -/
def checkFileSpecification (c : ClarifierState) (entities : EntityMap)
    (session : Option UserSession) : Option CheckOutcome :=
  let mentioned_files := entities.getD "files"
  if mentioned_files.isEmpty then
    match session with
    | some s =>
        if s.focusedFileSummary.isEmpty then
          some { missing := ["file_specification"],
                 suggestions :=
                   ["Available files: " ++ joinComma (c.available_files.take 5)] }
        else none
    | none => none
  else
    let existing_files := mentioned_files.foldl
      (fun acc file => acc ++ c.available_files.filter (fun f => ciContains file f)) []
    if existing_files.isEmpty then
      some { missing := ["valid_file"],
             suggestions :=
               ["Did you mean: " ++ joinComma (c.available_files.take 3) ++ "?"] }
    else if existing_files.length > 1 then
      some { missing := ["specific_file"],
             suggestions :=
               ["Multiple files match. Please specify: " ++ joinComma existing_files] }
    else none

/-- Python `', '.join(set(xs))`: deduplicated join.  CPython set iteration
order over small string sets is an implementation detail; we keep first
occurrences in list order (only the claim-irrelevant suggestion text depends
on it). -/
def joinCommaDedup (xs : List String) : String := joinComma xs.dedup

/-- `Clarifier._check_column_specification`. -/
def checkColumnSpecification (c : ClarifierState) (entities : EntityMap) :
    Option CheckOutcome :=
  let mentioned_columns := entities.getD "columns"
  if mentioned_columns.isEmpty then
    some { missing := ["column_specification"],
           suggestions := ["Please specify which columns or variables to analyze"] }
  else if !c.file_schemas.isEmpty then
    let valid_columns := c.file_schemas.foldl
      (fun acc p => mentioned_columns.foldl
        (fun acc2 mc => acc2 ++ p.2.filter (fun col => ciContains mc col)) acc) []
    if valid_columns.isEmpty then
      let available_cols := c.file_schemas.foldl (fun acc p => acc ++ p.2.take 3) []
      some { missing := ["valid_columns"],
             suggestions := ["Available columns: " ++ joinCommaDedup available_cols] }
    else none
  else none

/-- `Clarifier._check_statistical_method_specification`. -/
def checkStatisticalMethodSpecification (entities : EntityMap) :
    Option CheckOutcome :=
  if (entities.getD "statistical_methods").isEmpty then
    some { missing := ["statistical_method"],
           suggestions :=
             ["Available methods: t-test, ANOVA, correlation, regression, chi-square"] }
  else none

/-- `Clarifier._check_visualization_specification`. -/
def checkVisualizationSpecification (entities : EntityMap) :
    Option CheckOutcome :=
  if (entities.getD "visualization_types").isEmpty then
    some { missing := ["visualization_type"],
           suggestions :=
             ["Available plots: histogram, scatter, boxplot, heatmap, bar chart"] }
  else none

/-- `Clarifier._generate_clarification_question`. -/
def generateClarificationQuestion (missing_info suggestions : List String) :
    String :=
  let sugg0 := suggestions.headD ""
  if missing_info.contains "file_specification" then
    "Which file would you like to analyze? " ++ sugg0
  else if missing_info.contains "valid_file" then
    "I couldn\x27t find that file. " ++ sugg0
  else if missing_info.contains "specific_file" then
    "Multiple files match your request. " ++ sugg0
  else if missing_info.contains "column_specification" then
    "Which columns or variables would you like to analyze? " ++ sugg0
  else if missing_info.contains "valid_columns" then
    "I couldn\x27t find those columns. " ++ sugg0
  else if missing_info.contains "statistical_method" then
    "Which statistical test would you like to perform? " ++ sugg0
  else if missing_info.contains "visualization_type" then
    "What type of plot would you like to create? " ++ sugg0
  else
    "Could you provide more details about what you\x27d like to do?"

/-- Appends a check's outcome to the accumulated missing/suggestion lists
(the `missing_info.extend(...)` / `suggestions.extend(...)` pair). -/
def accumCheck (acc : List String × List String) (o : Option CheckOutcome) :
    List String × List String :=
  match o with
  | some r => (acc.1 ++ r.missing, acc.2 ++ r.suggestions)
  | none => acc

/-- `Clarifier.check_clarification_needed` (the `query` argument is unused by
the source body and therefore omitted). -/
def checkClarificationNeeded (c : ClarifierState) (intent : IntentType)
    (entities : EntityMap) (session : Option UserSession) :
    ClarificationResult :=
  let acc := accumCheck ([], []) (checkFileSpecification c entities session)
  let acc := if intent = .data_visualization ∨ intent = .statistical_analysis ∨
      intent = .data_cleaning then
    accumCheck acc (checkColumnSpecification c entities) else acc
  let acc := if intent = .statistical_analysis then
    accumCheck acc (checkStatisticalMethodSpecification entities) else acc
  let acc := if intent = .data_visualization then
    accumCheck acc (checkVisualizationSpecification entities) else acc
  let missing_info := acc.1
  let suggestions := acc.2
  if missing_info.isEmpty then
    { status := .ready }
  else
    { status := .clarification_needed
      question := some (generateClarificationQuestion missing_info suggestions)
      suggestions := suggestions
      missing_info := missing_info
      confidence := 0.8 }

/-! ## Intent classification (`src/labverse/agent/intent_classifier.py`)

`re.findall` is the Python regex engine, external to the repository; it is
modelled by an oracle `cm : String → String → Nat` giving the number of
matches of a pattern source string over a text.  The pattern table itself is
repository data and is embedded verbatim (literal braces in regexes are
written with `\x7b`/`\x7d` escapes, apostrophes with `\x27`). -/

/-- Result of intent classification (`IntentResult`). -/
structure IntentResult where
  primary_intent : IntentType
  secondary_intents : List IntentType := []
  confidence : ℚ
  reasoning : String
  entities : EntityMap := []
deriving DecidableEq

/-- `IntentClassifier._setup_patterns`: the rule-based pattern table, in
source (dict-insertion) order. -/
def intentPatterns : List (IntentType × List String) :=
  [ (.search_retrieval,
      ["\\b(find|search|look for|show me|get|retrieve)\\b",
       "\\b(where is|locate|which file)\\b",
       "\\b(data about|information on)\\b"]),
    (.metadata_query,
      ["\\b(what columns|column names|schema|structure)\\b",
       "\\b(file info|metadata|description|properties)\\b",
       "\\b(how many (rows|columns|files))\\b"]),
    (.data_visualization,
      ["\\b(plot|graph|chart|visualize|show)\\b",
       "\\b(histogram|scatter|boxplot|heatmap|bar chart)\\b",
       "\\b(distribution|correlation matrix)\\b"]),
    (.statistical_analysis,
      ["\\b(t-test|anova|regression|correlation|chi-square)\\b",
       "\\b(mean|median|std|variance|p-value|significant)\\b",
       "\\b(compare|test|analyze|statistical)\\b"]),
    (.data_cleaning,
      ["\\b(clean|filter|remove|outliers|missing values)\\b",
       "\\b(normalize|standardize|transform)\\b",
       "\\b(duplicates|null|nan|invalid)\\b"]),
    (.new_dataset_generation,
      ["\\b(create|generate|make|build) .*(dataset|file|table)\\b",
       "\\b(combine|merge|join|aggregate)\\b",
       "\\b(export|save|output)\\b"]),
    (.file_summary,
      ["\\b(summary|overview|describe|basic stats)\\b",
       "\\b(what\x27s in|contents of|about this file)\\b"]),
    (.code_generation,
      ["\\b(code|script|function|write|generate)\\b",
       "\\b(python|pandas|matplotlib|seaborn)\\b"]),
    (.scientific_question,
      ["\\b(hypothesis|research question|study|experiment)\\b",
       "\\b(clinical|laboratory|biomarker|patient)\\b"]),
    (.access_permission,
      ["\\b(access|permission|authorize|login|auth)\\b",
       "\\b(can\x27t access|denied|forbidden)\\b"]),
    (.help_instruction,
      ["\\b(help|how to|instructions|guide|tutorial)\\b",
       "\\b(what can you do|commands|options)\\b"]) ]

/-- Per-intent pattern-match score: `sum(len(re.findall(p, query_lower)))`.
`cm p t` is the oracle count of matches of regex `p` over text `t`. -/
def patternScore (cm : String → String → Nat) (queryLower : String)
    (patterns : List String) : Nat :=
  patterns.foldl (fun s p => s + cm p queryLower) 0

/-- The `intent_scores` dictionary: each intent of the table paired with its
score, keeping only intents whose score is positive (insertion order). -/
def intentScores (cm : String → String → Nat) (queryLower : String) :
    List (IntentType × Nat) :=
  (intentPatterns.map (fun p => (p.1, patternScore cm queryLower p.2))).filter
    (fun p => 0 < p.2)

/-- Python `max(intent_scores, key=intent_scores.get)` over a non-empty
association list: the first key attaining the maximal value. -/
def argmaxFirst (x : IntentType × Nat) (xs : List (IntentType × Nat)) :
    IntentType × Nat :=
  xs.foldl (fun b y => if y.2 > b.2 then y else b) x

/-- `IntentClassifier._rule_based_classification`. -/
def ruleBasedClassification (cm : String → String → Nat) (query : String) :
    IntentResult :=
  let queryLower := String.mk (lowerStr query)
  match intentScores cm queryLower with
  | [] =>
      { primary_intent := .search_retrieval
        confidence := 0.3
        reasoning := "No specific patterns matched, defaulting to search" }
  | x :: xs =>
      let top := argmaxFirst x xs
      let primary_intent := top.1
      let max_score := top.2
      let secondary_intents := ((x :: xs).filter
        (fun p => p.1 ≠ primary_intent ∧ (p.2 : ℚ) ≥ (max_score : ℚ) * 0.5)).map
        Prod.fst
      { primary_intent := primary_intent
        secondary_intents := secondary_intents
        confidence := min 0.9 ((max_score : ℚ) * 0.2 + 0.3)
        reasoning := "Rule-based classification with " ++ toString max_score ++
          " pattern matches" }

/-- `IntentClassifier.classify_intent`.  `hasLLM` is `self.llm is not None`;
`llmOutcome` is the outcome of `_llm_based_classification`'s model call:
`some r` when the completion was parsed into `r`, `none` when the call or the
parse raised (in which case that method falls back to the rule-based
result). -/
def classifyIntent (hasLLM : Bool) (llmOutcome : Option IntentResult)
    (cm : String → String → Nat) (query : String) : IntentResult :=
  let rule_based_result := ruleBasedClassification cm query
  if hasLLM ∧ rule_based_result.confidence < 0.7 then
    let llm_result :=
      match llmOutcome with
      | some r => r
      | none => rule_based_result
    if llm_result.confidence > rule_based_result.confidence then llm_result
    else rule_based_result
  else rule_based_result

/-! ## Entity extraction (`src/labverse/agent/entity_extractor.py`)

External collaborators are oracles: `re.finditer` (`fd`), the spaCy pipeline
(`nlp`), and the completion service (`llmOutcome`). -/

/-- The `metadata` dictionary attached to an `Entity` (the keys the source
ever writes). -/
structure EntityMeta where
  spacy_label : Option String := none
  validated_files : Option (List String) := none
  validated_columns : Option (List String) := none
  source : Option String := none
deriving DecidableEq

/-- An extracted entity (`Entity`). -/
structure Entity where
  text : String
  label : String
  confidence : ℚ
  start_pos : Nat := 0
  end_pos : Nat := 0
  metadata : EntityMeta := {}
deriving DecidableEq

/-- Result of entity extraction (`EntityExtractionResult`). -/
structure EntityExtractionResult where
  entities : List Entity
  structured_entities : EntityMap
  confidence : ℚ
deriving DecidableEq

/-- `EntityExtractor._setup_patterns`: the extraction pattern table, in
source (dict-insertion) order.  Literal regex braces are written with
`\x7b`/`\x7d`, apostrophes with `\x27`. -/
def entityPatterns : List (String × List String) :=
  [ ("files",
      ["\\b(\\w+\\.(csv|xlsx?|json|txt|tsv|pdf))\\b",
       "\\bfile\\s+[\"\x27]?(\\w+)[\"\x27]?",
       "\\bdataset\\s+[\"\x27]?(\\w+)[\"\x27]?",
       "\\btable\\s+[\"\x27]?(\\w+)[\"\x27]?"]),
    ("columns",
      ["\\bcolumn\\s+[\"\x27]?(\\w+)[\"\x27]?",
       "\\b[\"\x27](\\w+)[\"\x27]?\\s+column\\b",
       "\\bfield\\s+[\"\x27]?(\\w+)[\"\x27]?",
       "\\bvariable\\s+[\"\x27]?(\\w+)[\"\x27]?",
       "\\b(glucose|cholesterol|hemoglobin|creatinine|albumin|bun|sodium|potassium)\\b",
       "\\b(patient_?id|sample_?id|test_?date|result_?value)\\b"]),
    ("statistical_methods",
      ["\\b(t-test|ttest|student\x27?s t-test)\\b",
       "\\b(anova|analysis of variance)\\b",
       "\\b(correlation|pearson|spearman)\\b",
       "\\b(regression|linear regression|logistic regression)\\b",
       "\\b(chi-square|chi squared|χ²)\\b",
       "\\b(mann-whitney|wilcoxon)\\b",
       "\\b(normality test|shapiro-wilk|kolmogorov-smirnov)\\b"]),
    ("visualization_types",
      ["\\b(histogram|hist)\\b",
       "\\b(scatter plot|scatterplot|scatter)\\b",
       "\\b(box plot|boxplot|box)\\b",
       "\\b(heat map|heatmap)\\b",
       "\\b(bar chart|bar graph|barplot)\\b",
       "\\b(line plot|line chart|lineplot)\\b",
       "\\b(violin plot|violinplot)\\b"]),
    ("operations",
      ["\\b(filter|remove|exclude|include)\\b",
       "\\b(group by|aggregate|sum|mean|average|count)\\b",
       "\\b(sort|order by|rank)\\b",
       "\\b(merge|join|combine|concatenate)\\b",
       "\\b(clean|normalize|standardize|transform)\\b"]),
    ("numerical_values",
      ["\\b(\\d+(?:\\.\\d+)?)\\s*([%]|percent|mg/dl|mmol/l|units?|μmol/l)\\b",
       "\\b(\\d+(?:\\.\\d+)?)\\b"]),
    ("comparisons",
      ["\\b(greater than|more than|above|over)\\s*(\\d+(?:\\.\\d+)?)\\b",
       "\\b(less than|below|under)\\s*(\\d+(?:\\.\\d+)?)\\b",
       "\\b(equals?|equal to)\\s*(\\d+(?:\\.\\d+)?)\\b",
       "\\b(between)\\s*(\\d+(?:\\.\\d+)?)\\s*and\\s*(\\d+(?:\\.\\d+)?)\\b"]),
    ("time_references",
      ["\\b(\\d\x7b4\x7d-\\d\x7b2\x7d-\\d\x7b2\x7d)\\b",
       "\\b(\\d\x7b1,2\x7d/\\d\x7b1,2\x7d/\\d\x7b4\x7d)\\b",
       "\\b(last|previous|past)\\s+(week|month|year|day)\\b",
       "\\b(this|current)\\s+(week|month|year|day)\\b"]),
    ("laboratory_terms",
      ["\\b(reference range|normal range|abnormal|out of range)\\b",
       "\\b(lab results?|test results?|panel|screening)\\b",
       "\\b(patient|subject|participant|sample)\\b",
       "\\b(biomarker|analyte|assay|measurement)\\b"]) ]

/-- One `re.finditer` match: the captured groups (in order), the whole
matched text, and the span. -/
structure ReMatch where
  groups : List String
  whole : String
  startPos : Nat
  endPos : Nat

/-- The per-match text choice of `_extract_with_patterns`:
`match.group(1) if len(match.groups()) >= 1 else match.group(0)`. -/
def reMatchText (m : ReMatch) : String :=
  match m.groups with
  | [] => m.whole
  | g1 :: _ => g1

/-- `EntityExtractor._extract_with_patterns`.  `fd p t` is the oracle list of
`re.finditer(p, t)` matches. -/
def extractWithPatterns (fd : String → String → List ReMatch)
    (query : String) : List Entity :=
  let queryLower := String.mk (lowerStr query)
  entityPatterns.foldl (fun acc fam =>
    fam.2.foldl (fun acc2 pat =>
      acc2 ++ (fd pat queryLower).map (fun m =>
        { text := reMatchText m
          label := fam.1
          confidence := 0.8
          start_pos := m.startPos
          end_pos := m.endPos })) acc) []

/-- A spaCy named entity (text, spaCy label, character span). -/
structure SpacyEnt where
  text : String
  label : String
  start_char : Nat
  end_char : Nat

/-- A spaCy noun chunk (text and character span). -/
structure SpacyChunk where
  text : String
  start_char : Nat
  end_char : Nat

/-- The parse the spaCy pipeline returns for the query. -/
structure SpacyDoc where
  ents : List SpacyEnt
  noun_chunks : List SpacyChunk

/-- `EntityExtractor._map_spacy_label`. -/
def mapSpacyLabel (spacy_label : String) : Option String :=
  if spacy_label = "PERSON" then some "potential_column"
  else if spacy_label = "DATE" then some "time_references"
  else if spacy_label = "TIME" then some "time_references"
  else if spacy_label = "CARDINAL" then some "numerical_values"
  else if spacy_label = "QUANTITY" then some "numerical_values"
  else if spacy_label = "PERCENT" then some "numerical_values"
  else if spacy_label = "ORG" then some "potential_file"
  else none

/-- Python `len(s.split())`: number of whitespace-separated words. -/
def wordCount (s : String) : Nat :=
  ((s.split Char.isWhitespace).filter (fun w => !w.isEmpty)).length

/-- `EntityExtractor._extract_with_nlp` given the spaCy parse of the query. -/
def extractWithNLP (doc : SpacyDoc) : List Entity :=
  let fromEnts := doc.ents.foldl (fun acc e =>
    match mapSpacyLabel e.label with
    | some entity_type =>
        acc ++ [{ text := e.text
                  label := entity_type
                  confidence := 0.7
                  start_pos := e.start_char
                  end_pos := e.end_char
                  metadata := { spacy_label := some e.label } }]
    | none => acc) []
  doc.noun_chunks.foldl (fun acc c =>
    if wordCount c.text ≤ 3 then
      acc ++ [{ text := c.text
                label := "potential_column"
                confidence := 0.5
                start_pos := c.start_char
                end_pos := c.end_char }]
    else acc) fromEnts

/-- The caller-supplied context dictionary (`available_files` /
`available_columns`). -/
structure ExtractionContext where
  available_files : List String := []
  available_columns : List String := []

/-- `EntityExtractor._validate_with_context`: boost and tag entities that
match the available files/columns, discount the rest. -/
def validateWithContext (entities : List Entity) (ctx : ExtractionContext) :
    List Entity :=
  entities.map (fun e =>
    if e.label = "files" then
      let ms := ctx.available_files.filter (fun f => ciContains e.text f)
      if !ms.isEmpty then
        { e with confidence := min 1.0 (e.confidence + 0.2)
                 metadata := { e.metadata with validated_files := some ms } }
      else { e with confidence := e.confidence * 0.5 }
    else if e.label = "columns" ∨ e.label = "potential_column" then
      let ms := ctx.available_columns.filter (fun col => ciContains e.text col)
      if !ms.isEmpty then
        { e with label := "columns"
                 confidence := min 1.0 (e.confidence + 0.3)
                 metadata := { e.metadata with validated_columns := some ms } }
      else { e with confidence := e.confidence * 0.7 }
    else e)

/-- An entity parsed out of the completion service's JSON reply (text, label,
model-reported confidence).  The code inserts the reported confidence without
any range validation. -/
structure LLMEntitySpec where
  text : String
  label : String
  confidence : ℚ

/-- `EntityExtractor._extract_with_llm` given the outcome of the completion
call: `some specs` when the reply parsed, `none` when the call or the JSON
parse raised (the method then returns `[]`). -/
def extractWithLLM (llmOutcome : Option (List LLMEntitySpec)) : List Entity :=
  match llmOutcome with
  | some specs =>
      specs.map (fun s =>
        { text := s.text
          label := s.label
          confidence := s.confidence
          metadata := { source := some "llm" } })
  | none => []

/-- The dictionary key `_merge_entities` dedupes on:
`(entity.text.lower(), entity.label)`. -/
def entityKey (e : Entity) : List Char × String := (lowerStr e.text, e.label)

/-- The duplicate resolution of `_merge_entities`: keep the entity with the
strictly higher confidence (ties keep the incumbent). -/
def pickHigher (a e : Entity) : Entity :=
  if e.confidence > a.confidence then e else a

/-- One iteration of `_merge_entities`: Python dict insert keeps an existing
key's position and replaces its value only when the new entity's confidence
is strictly higher; a new key is appended. -/
def mergeStep (acc : List Entity) (e : Entity) : List Entity :=
  if acc.any (fun a => entityKey a = entityKey e) then
    acc.map (fun a => if entityKey a = entityKey e then pickHigher a e else a)
  else acc ++ [e]

/-- `EntityExtractor._merge_entities`. -/
def mergeEntities (entities : List Entity) : List Entity :=
  entities.foldl mergeStep []

/-- `EntityExtractor._structure_entities`: group the texts of entities with
confidence ≥ 0.5 by label, then deduplicate each label's list
(`list(set(...))`; CPython's set iteration order is an implementation
detail — first occurrences are kept here). -/
def structureEntities (entities : List Entity) : EntityMap :=
  let grouped := entities.foldl (fun acc e =>
    if e.confidence ≥ 0.5 then
      if acc.any (fun p => p.1 = e.label) then
        acc.map (fun p => if p.1 = e.label then (p.1, p.2 ++ [e.text]) else p)
      else acc ++ [(e.label, [e.text])]
    else acc) []
  grouped.map (fun p => (p.1, p.2.dedup))

/-- `EntityExtractor._calculate_confidence`. -/
def calculateEntityConfidence (entities : List Entity) : ℚ :=
  if entities.isEmpty then 0.0
  else
    let total_confidence := (entities.map Entity.confidence).sum
    let avg_confidence := total_confidence / entities.length
    let unique_labels := (entities.map Entity.label).dedup.length
    let type_bonus := min 0.2 ((unique_labels : ℚ) * 0.05)
    min 1.0 (avg_confidence + type_bonus)

/-- `EntityExtractor.extract_entities`.  `nlp` is `none` when the spaCy model
failed to load; `hasLLM`/`llmOutcome` model the completion service as in
`extractWithLLM`; `ctx` is `none` when no (truthy) context dict was passed. -/
def extractEntities (fd : String → String → List ReMatch)
    (nlp : Option SpacyDoc) (ctx : Option ExtractionContext) (hasLLM : Bool)
    (llmOutcome : Option (List LLMEntitySpec)) (query : String) :
    EntityExtractionResult :=
  let entities := extractWithPatterns fd query
  let entities := match nlp with
    | some doc => entities ++ extractWithNLP doc
    | none => entities
  let entities := match ctx with
    | some c => validateWithContext entities c
    | none => entities
  let entities := if hasLLM ∧ entities.length < 3 then
      entities ++ extractWithLLM llmOutcome
    else entities
  let entities := mergeEntities entities
  { entities := entities
    structured_entities := structureEntities entities
    confidence := calculateEntityConfidence entities }

/-! ## Retriever (`src/labverse/agent/retriever.py`)

The ChromaDB vector store, the filesystem (`os.stat`/`os.path.exists`) and
the pandas sample-preview reads are external; they appear as oracles. -/

/-- The metadata fields of a vector-store document that the retriever reads
(each is `Option` because the source accesses them with `.get`/`in`). -/
structure DocMeta where
  file_path : Option String := none
  file_name : Option String := none
  columns : Option String := none
  file_size : Option Int := none
  modified_date : Option ℚ := none
deriving DecidableEq

/-- A document returned by the semantic-search service. -/
structure PyDoc where
  page_content : String
  metadata : DocMeta
deriving DecidableEq

/-- The `_get_sample_data` preview (shape, columns, first rows) read from
the source file by pandas; produced wholesale by the filesystem oracle. -/
structure SampleData where
  shape : Nat × Nat
  columns : List String
  sample_rows : String
deriving DecidableEq

/-- An enriched document dictionary built by `_enrich_documents`. -/
structure EnrichedDoc where
  file_path : Option String
  file_name : String
  description : String
  columns : List String
  metadata : DocMeta
  file_size : Option Int := none
  modified_date : Option ℚ := none
  sample_data : Option SampleData := none
deriving DecidableEq

/-- Aggregated metadata over the returned documents
(`_aggregate_metadata`; `{}` when no documents survive). -/
structure AggMeta where
  total_files : Nat
  unique_columns : List String
  file_types : List String
  total_size_bytes : Int
  column_count : Nat
deriving DecidableEq

/-- Result of data retrieval (`RetrievalResult`). -/
structure RetrievalResult where
  documents : List EnrichedDoc
  file_paths : List (Option String)
  metadata : Option AggMeta
  confidence : ℚ
deriving DecidableEq

/-- Caller-supplied metadata filters (`filters` dict; a field is `none` when
its key is absent). -/
structure RetrievalFilters where
  file_type : Option (List String) := none
  date_range : Option Unit := none
  max_size : Option Int := none

/-- `os.path.splitext(p)[1].lower()`: the extension of the last path
component, empty when the basename has no dot after its leading dots. -/
def splitextExtLower (p : String) : String :=
  let cs := p.toList
  let base := ((cs.reverse.takeWhile (fun c => c ≠ '/')).reverse)
  let afterDots := base.dropWhile (fun c => c = '.')
  match (afterDots.reverse.takeWhile (fun c => c ≠ '.')).reverse, afterDots with
  | _, [] => ""
  | stem, _ =>
      if stem.length = afterDots.length then ""
      else String.mk (('.' :: (afterDots.reverse.takeWhile (fun c => c ≠ '.')).reverse).map Char.toLower)

/-- `Retriever._semantic_search`: `get_relevant_documents(query)[:k]`, with
any raise degraded to `[]`.  `search` is the vector store's behaviour. -/
def semanticSearch (search : Except String (List PyDoc)) (k : Nat) :
    List PyDoc :=
  match search with
  | .ok docs => docs.take k
  | .error _ => []

/-- Whether a document's `file_name` metadata matches one of the extracted
file entities (`any(entity.lower() in file_name.lower() ...)`). -/
def docMatchesFileEntities (fileEntities : List String) (d : PyDoc) : Bool :=
  fileEntities.any (fun entity => ciContains entity (d.metadata.file_name.getD ""))

/-- Whether a document's `columns` metadata matches one of the extracted
column entities. -/
def docMatchesColumnEntities (columnEntities : List String) (d : PyDoc) : Bool :=
  columnEntities.any (fun entity => ciContains entity (d.metadata.columns.getD ""))

/-- The file-entity half of `Retriever._apply_entity_filters` (keep matching
documents, fall back to all documents when none match). -/
def fileEntityFilter (docs : List PyDoc) (fileEntities : List String) :
    List PyDoc :=
  if fileEntities.isEmpty then docs
  else
    let filtered := docs.filter (docMatchesFileEntities fileEntities)
    if filtered.isEmpty then docs else filtered

/-- The column-entity half of `Retriever._apply_entity_filters` (narrow to
matching documents only when at least one matches). -/
def columnEntityFilter (docs : List PyDoc) (columnEntities : List String) :
    List PyDoc :=
  if columnEntities.isEmpty then docs
  else
    let filtered := docs.filter (docMatchesColumnEntities columnEntities)
    if filtered.isEmpty then docs else filtered

/-- `Retriever._apply_entity_filters`. -/
def applyEntityFilters (docs : List PyDoc) (entities : EntityMap) :
    List PyDoc :=
  if entities.isEmpty then docs
  else
    columnEntityFilter (fileEntityFilter docs (entities.getD "files"))
      (entities.getD "columns")

/-- `Retriever._apply_metadata_filters` (the date-range branch of the source
is `pass`). -/
def applyMetadataFilters (docs : List PyDoc) (filters : RetrievalFilters) :
    List PyDoc :=
  docs.filter (fun d =>
    let typeOk := match filters.file_type with
      | some allowed =>
          allowed.contains (splitextExtLower (d.metadata.file_path.getD ""))
      | none => true
    let sizeOk := match filters.max_size, d.metadata.file_size with
      | some maxSize, some size => decide (size ≤ maxSize)
      | _, _ => true
    typeOk && sizeOk)

/-- The relevance score `_rank_documents` assigns to one document. -/
def docScore (entities : EntityMap) (d : PyDoc) : ℚ :=
  let file_name := lowerStr (d.metadata.file_name.getD "")
  let columns := lowerStr (d.metadata.columns.getD "")
  let base := (0.5 : ℚ)
  let fileBoost := ((entities.getD "files").filter
    (fun entity => listHasInfix (lowerStr entity) file_name)).length * (0.3 : ℚ)
  let colBoost := ((entities.getD "columns").filter
    (fun entity => listHasInfix (lowerStr entity) columns)).length * (0.2 : ℚ)
  let recency := if d.metadata.modified_date.isSome then (0.1 : ℚ) else 0
  base + fileBoost + colBoost + recency

/-- Stable descending insertion used to model Python's stable
`sort(key=score, reverse=True)`: an element is placed after every
already-placed element whose score is not strictly smaller. -/
def insertDesc (x : PyDoc × ℚ) : List (PyDoc × ℚ) → List (PyDoc × ℚ)
  | [] => [x]
  | y :: ys => if x.2 > y.2 then x :: y :: ys else y :: insertDesc x ys

/-- `Retriever._rank_documents`: stable sort by descending score. -/
def rankDocuments (docs : List PyDoc) (entities : EntityMap) : List PyDoc :=
  (docs.foldl (fun acc d => insertDesc (d, docScore entities d) acc) []).map
    Prod.fst

/-- `Retriever._enrich_documents` for one document.  `statOf` models
`os.path.exists` + `os.stat` (`none`: missing file or raise), `sampleOf`
models `_get_sample_data`'s pandas read. -/
def enrichDoc (statOf : String → Option (Int × ℚ))
    (sampleOf : String → Option SampleData) (d : PyDoc) : EnrichedDoc :=
  let file_path := d.metadata.file_path
  let base : EnrichedDoc :=
    { file_path := file_path
      file_name := d.metadata.file_name.getD ""
      description := d.page_content
      columns := match d.metadata.columns with
        | some c => if c.isEmpty then [] else c.splitOn ", "
        | none => []
      metadata := d.metadata }
  let withStat := match file_path with
    | some p =>
        if p.isEmpty then base
        else
          match statOf p with
          | some st => { base with file_size := some st.1, modified_date := some st.2 }
          | none => base
    | none => base
  { withStat with
    sample_data := match file_path with
      | some p => if p.isEmpty then none else sampleOf p
      | none => none }

/-- `Retriever._aggregate_metadata`.  Python unions columns/file types via
`set`; set iteration order is an implementation detail, first occurrences are
kept here. -/
def aggregateMetadata (docs : List EnrichedDoc) : Option AggMeta :=
  if docs.isEmpty then none
  else
    let all_columns := (docs.foldl (fun acc d => acc ++ d.columns) []).dedup
    let truthyPath : EnrichedDoc → Option String := fun d =>
      match d.file_path with
      | some p => if p.isEmpty then none else some p
      | none => none
    let file_types := ((docs.filterMap truthyPath).map
      (fun p => splitextExtLower p)).dedup
    let total_size := (docs.filterMap
      (fun d => if (truthyPath d).isSome then some (d.file_size.getD 0) else none)).sum
    some { total_files := docs.length
           unique_columns := all_columns
           file_types := file_types
           total_size_bytes := total_size
           column_count := all_columns.length }

/-- `Retriever._calculate_retrieval_confidence`. -/
def retrievalConfidence (docs : List EnrichedDoc) (entities : EntityMap) : ℚ :=
  if docs.isEmpty then 0.0
  else
    let total_entities := (entities.map (fun p => p.2.length)).sum
    let base := (0.6 : ℚ)
    let withMatches :=
      if 0 < total_entities then
        let entity_matches := docs.foldl (fun acc d =>
          let file_name := lowerStr d.file_name
          let cols := d.columns.map lowerStr
          let fm := ((entities.getD "files").filter
            (fun e => listHasInfix (lowerStr e) file_name)).length
          let cm := ((entities.getD "columns").filter
            (fun e => cols.any (fun col => listHasInfix (lowerStr e) col))).length
          acc + fm + cm) 0
        let match_ratio := min 1.0 ((entity_matches : ℚ) / (total_entities : ℚ))
        base + match_ratio * 0.3
      else base
    let withMulti := if 2 ≤ docs.length then withMatches + 0.1 else withMatches
    min 1.0 withMulti

/-- `Retriever.retrieve_context`. -/
def retrieveContext (search : Except String (List PyDoc))
    (statOf : String → Option (Int × ℚ))
    (sampleOf : String → Option SampleData) (entities : EntityMap)
    (filters : Option RetrievalFilters) (max_results : Nat) :
    RetrievalResult :=
  let semantic_docs := semanticSearch search (max_results * 2)
  let filtered_docs := applyEntityFilters semantic_docs entities
  let filtered_docs := match filters with
    | some f => applyMetadataFilters filtered_docs f
    | none => filtered_docs
  let ranked_docs := rankDocuments filtered_docs entities
  let final_docs := ranked_docs.take max_results
  let enriched_docs := final_docs.map (enrichDoc statOf sampleOf)
  { documents := enriched_docs
    file_paths := enriched_docs.map EnrichedDoc.file_path
    metadata := aggregateMetadata enriched_docs
    confidence := retrievalConfidence enriched_docs entities }

/-! ## Executor (`src/labverse/agent/executor.py`)

`exec` over generated text is the Python interpreter, external to the
repository: its behaviour on a given code string is an `ExecBehavior`
oracle value.  Crucially, `_execute_code_safely` invokes `exec` with no
timeout mechanism (`self.timeout` is stored by `__init__` but never used),
so a diverging `exec` makes the whole call diverge; divergence is modelled
by `Option` (`none` = the call never returns). -/

/-- Python `str.strip()` on a character list. -/
def trimChars (cs : List Char) : List Char :=
  ((cs.dropWhile Char.isWhitespace).reverse.dropWhile Char.isWhitespace).reverse

/-- Split a character list into lines (Python `s.split('\n')`, which keeps
empty pieces). -/
def splitLines : List Char → List (List Char)
  | [] => [[]]
  | c :: cs =>
      let rest := splitLines cs
      if c = '\n' then [] :: rest
      else
        match rest with
        | [] => [[c]]
        | l :: ls => (c :: l) :: ls

/-- Text before and after the first occurrence of token `tok`, or `none`
when `tok` does not occur. -/
def splitAtFirstTok (tok : List Char) : List Char → Option (List Char × List Char)
  | [] => if tok.isEmpty then some ([], []) else none
  | c :: cs =>
      if listHasPrefix tok (c :: cs) then some ([], (c :: cs).drop tok.length)
      else
        match splitAtFirstTok tok cs with
        | some (before, after) => some (c :: before, after)
        | none => none

/-- The leftmost, shortest capture of a `o(.*?)c` regex with `re.DOTALL`
(used by the fenced-code-block patterns): at the first occurrence of the
opener that is followed by the closer, the text in between. -/
def findBetween (o c : List Char) : List Char → Option (List Char)
  | [] => none
  | x :: rest =>
      if listHasPrefix o (x :: rest) then
        match splitAtFirstTok c ((x :: rest).drop o.length) with
        | some (before, _) => some before
        | none => findBetween o c rest
      else findBetween o c rest

/-- Fuel-indexed worker for `re.sub(o(.*?)c, '', s)` with `re.DOTALL`:
deletes every non-overlapping leftmost-shortest delimited block. -/
def removeDelimFuel (o c : List Char) : Nat → List Char → List Char
  | 0, _ => []
  | _ + 1, [] => []
  | fuel + 1, x :: rest =>
      if listHasPrefix o (x :: rest) then
        match splitAtFirstTok c ((x :: rest).drop o.length) with
        | some (_, after) => removeDelimFuel o c fuel after
        | none => x :: removeDelimFuel o c fuel rest
      else x :: removeDelimFuel o c fuel rest

/-- `re.sub(o(.*?)c, '', s)` with `re.DOTALL`. -/
def removeDelim (o c cs : List Char) : List Char :=
  removeDelimFuel o c cs.length cs

/-- Fuel-indexed worker for the whitespace collapse
`re.sub(r'\n\s*\n\s*\n', '\n\n', s)`: a match starts at a newline and, by
greedy backtracking, extends to the last newline of the contiguous
whitespace run containing at least three newlines. -/
def collapseBlankFuel : Nat → List Char → List Char
  | 0, _ => []
  | _ + 1, [] => []
  | fuel + 1, x :: rest =>
      if x = '\n' then
        let run := (x :: rest).takeWhile Char.isWhitespace
        let newlines := (run.filter (fun ch => ch = '\n')).length
        if 3 ≤ newlines then
          let lastNl := ((run.reverse).dropWhile (fun ch => ch ≠ '\n')).reverse
          '\n' :: '\n' :: collapseBlankFuel fuel ((x :: rest).drop lastNl.length)
        else x :: collapseBlankFuel fuel rest
      else x :: collapseBlankFuel fuel rest

/-- `re.sub(r'\n\s*\n\s*\n', '\n\n', s)`. -/
def collapseBlank (cs : List Char) : List Char :=
  collapseBlankFuel cs.length cs

/-- The code-section trigger of `_extract_code_from_response`'s fallback
scan: `any(keyword in stripped for keyword in [...])`. -/
def codeStartTrigger (stripped : List Char) : Bool :=
  [toString "import ", "def ", "pd.", "plt.", "sns.", "result = "].any
    (fun kw => listHasInfix kw.toList stripped)

/-- The fallback line scanner of `_extract_code_from_response`: once a
code-like line is seen, collect code, blank and `#`-comment lines, stopping
at the first other line. -/
def scanCodeLines (in_code_section : Bool) : List (List Char) → List (List Char)
  | [] => []
  | line :: rest =>
      let stripped := trimChars line
      let inCode := in_code_section || codeStartTrigger stripped
      if inCode then
        if !stripped.isEmpty && !listHasPrefix ['#'] stripped &&
            !listHasPrefix ['/', '/'] stripped then
          line :: scanCodeLines inCode rest
        else if stripped.isEmpty then
          line :: scanCodeLines inCode rest
        else if listHasPrefix ['#'] stripped then
          line :: scanCodeLines inCode rest
        else []
      else scanCodeLines inCode rest

/-- `Executor._extract_code_from_response`. -/
def extractCodeFromResponse (response : String) : Option String :=
  let cs := response.toList
  let fence1 := findBetween ("```python\n".toList) ("\n```".toList) cs
  let fence2 := findBetween ("```\n".toList) ("\n```".toList) cs
  let fence3 := findBetween ("```python".toList) ("```".toList) cs
  match fence1.orElse (fun _ => fence2) |>.orElse (fun _ => fence3) with
  | some capture => some (String.mk (trimChars capture))
  | none =>
      let code_lines := scanCodeLines false (splitLines cs)
      if code_lines.isEmpty then none
      else
        some (String.mk (trimChars
          (String.intercalate "\n" (code_lines.map String.mk)).toList))

/-- `Executor._clean_response_text`. -/
def cleanResponseText (response : String) : String :=
  let cs := response.toList
  let cs := removeDelim ("```python".toList) ("```".toList) cs
  let cs := removeDelim ("```".toList) ("```".toList) cs
  String.mk (trimChars (collapseBlank cs))

/-- A value a generated program may have left in `result`, `output`,
`answer` or `df`, as far as `_execute_code_safely`'s formatting observes
it: a DataFrame (shape and printed head), an array-like (length and repr),
or anything else (its `str`). -/
inductive PyValue where
  | dataFrame (rows cols : Nat) (headStr : String)
  | arrayLike (len : Nat) (reprStr : String)
  | other (str : String)

/-- Behaviour of `exec(code, local_vars, local_vars)` on a given code
string: it may never return, raise, or finish with captured output and a
variable lookup for the result variables. -/
inductive ExecBehavior where
  | diverge
  | raises (errText : String)
  | finishes (stdout stderr : String) (varOf : String → Option PyValue)

/-- Result of code execution (`ExecutionResult`). -/
structure ExecutionResult where
  success : Bool
  output : Option String := none
  error : Option String := none
  plots_created : List String := []
  data_exported : List String := []
  execution_time : ℚ := 0.0

/-- Python string truncation `s[:n]`. -/
def takeStr (n : Nat) (s : String) : String := String.mk (s.toList.take n)

/-- The result formatting block of `_execute_code_safely`. -/
def formatResultValue (v : PyValue) : String :=
  match v with
  | .dataFrame rows cols headStr =>
      "DataFrame with shape (" ++ toString rows ++ ", " ++ toString cols ++
        "):\n" ++ headStr
  | .arrayLike len reprStr =>
      "Array/List with " ++ toString len ++ " elements:\n" ++ takeStr 500 reprStr
  | .other str => takeStr 1000 str

/-- The result-variable probe: the first of `result`, `output`, `answer`,
`df` bound in the namespace after execution. -/
def lookupResultVar (varOf : String → Option PyValue) : Option PyValue :=
  match varOf "result" with
  | some v => some v
  | none =>
      match varOf "output" with
      | some v => some v
      | none =>
          match varOf "answer" with
          | some v => some v
          | none => varOf "df"

/-- `Executor._execute_code_safely`.  `behavior` is the oracle behaviour of
`exec` on the given code, `elapsed` the externally measured wall-clock
duration; `none` models the call never returning — the source has no
timeout mechanism that could interrupt `exec`. -/
def executeCodeSafely (enable_code_execution : Bool) (behavior : ExecBehavior)
    (elapsed : ℚ) : Option ExecutionResult :=
  if !enable_code_execution then
    some { success := false, error := some "Code execution is disabled" }
  else
    match behavior with
    | .diverge => none
    | .raises errText =>
        some { success := false, error := some errText, execution_time := elapsed }
    | .finishes stdout_output stderr_output varOf =>
        let result := lookupResultVar varOf
        let result_str := match result with
          | some v => formatResultValue v
          | none => stdout_output
        some { success := true
               output := some result_str
               error := if !stderr_output.isEmpty then some stderr_output else none
               execution_time := elapsed }

/-- Round to nearest with ties to even (the rounding of Python's `{:.2f}`
format, modelled exactly on ℚ). -/
def roundHalfEven (q : ℚ) : ℤ :=
  let f := ⌊q⌋
  let r := q - f
  if r < 1/2 then f
  else if 1/2 < r then f + 1
  else if f % 2 = 0 then f else f + 1

/-- Python `f"{t:.2f}"` for a non-negative duration. -/
def formatFixed2 (t : ℚ) : String :=
  let n := (roundHalfEven (t * 100)).toNat
  let whole := n / 100
  let frac := n % 100
  toString whole ++ "." ++ (if frac < 10 then "0" else "") ++ toString frac

/-- `Executor._format_execution_result`. -/
def formatExecutionResult (exec_result : ExecutionResult) : String :=
  if !exec_result.success then
    "❌ Execution failed:\n" ++ (exec_result.error.getD "")
  else
    let result_parts : List String := []
    let result_parts := match exec_result.output with
      | some out =>
          if !out.isEmpty then
            result_parts ++ ["✅ Execution successful:", out]
          else result_parts
      | none => result_parts
    let result_parts := if !exec_result.plots_created.isEmpty then
        result_parts ++ ["📊 Plots created: " ++ joinComma exec_result.plots_created]
      else result_parts
    let result_parts := if !exec_result.data_exported.isEmpty then
        result_parts ++ ["💾 Data exported: " ++ joinComma exec_result.data_exported]
      else result_parts
    let result_parts := result_parts ++
      ["⏱️ Execution time: " ++ formatFixed2 exec_result.execution_time ++ "s"]
    let result_parts := match exec_result.error with
      | some err => if !err.isEmpty then
          result_parts ++ ["⚠️ Warnings: " ++ err] else result_parts
      | none => result_parts
    String.intercalate "\n" result_parts

/-- `Executor._generate_follow_up_suggestions` (the `query` argument is
unused by the source body and therefore omitted). -/
def generateFollowUpSuggestions (intent : String) (code : Option String)
    (execution_result : Option String) : List String :=
  let suggestions : List String :=
    if intent = "data_visualization" then
      ["Would you like to customize the plot colors or style?",
       "Do you want to export this visualization?",
       "Should we create additional plots for comparison?"]
    else if intent = "statistical_analysis" then
      ["Would you like to visualize these results?",
       "Do you want to perform additional statistical tests?",
       "Should we check the assumptions for this test?"]
    else if intent = "file_summary" then
      ["Would you like to analyze specific columns?",
       "Do you want to create visualizations of this data?",
       "Should we check for data quality issues?"]
    else if intent = "data_cleaning" then
      ["Would you like to apply these changes permanently?",
       "Do you want to analyze the cleaned data?",
       "Should we create a summary of the cleaning steps?"]
    else []
  let suggestions := match execution_result with
    | some er =>
        if !er.isEmpty ∧ listHasInfix "DataFrame".toList er.toList then
          suggestions ++ ["Would you like to explore this data further?"]
        else suggestions
    | none => suggestions
  let suggestions := match code with
    | some c =>
        if !c.isEmpty ∧ listHasInfix "plt.".toList c.toList then
          suggestions ++ ["Do you want to modify the visualization?"]
        else suggestions
    | none => suggestions
  suggestions.take 3

/-- An attachment descriptor dictionary built by `_create_attachments`. -/
structure Attachment where
  atype : String
  description : String
  url : Option String := none
  filename : Option String := none
deriving DecidableEq

/-- `Executor._create_attachments`. -/
def createAttachments (execution_result : Option String) : List Attachment :=
  match execution_result with
  | some er =>
      if er.isEmpty then []
      else
        let plots := if listHasInfix "📊 Plots created:".toList er.toList then
            [{ atype := "plot", description := "Generated visualization",
               url := some "/static/plots/latest_plot.png" : Attachment }]
          else []
        let datas := if listHasInfix "💾 Data exported:".toList er.toList then
            [{ atype := "data", description := "Exported data file",
               filename := some "exported_data.csv" : Attachment }]
          else []
        plots ++ datas
  | none => []

/-- Formatted response for the user (`FormattedResponse`). -/
structure FormattedResponse where
  message : String
  code : Option String := none
  execution_result : Option String := none
  code_type : String := "python"
  attachments : List Attachment := []
  follow_up_suggestions : List String := []
deriving DecidableEq

/-- `Executor.process_llm_response`.  `execOf` gives the oracle `exec`
behaviour for the extracted code (the `file_paths` argument only seeds the
`exec` namespace and is folded into that oracle; `query` is unused by the
source body); `none` as the overall result models the call never returning
(possible because `_execute_code_safely` enforces no timeout). -/
def processLLMResponse (enable_code_execution : Bool)
    (execOf : String → ExecBehavior) (elapsed : ℚ) (llm_response : String)
    (intent : String) : Option FormattedResponse :=
  let code := extractCodeFromResponse llm_response
  let message := cleanResponseText llm_response
  let codeTruthy := match code with
    | some c => !c.isEmpty
    | none => false
  match (if codeTruthy && enable_code_execution then
      match executeCodeSafely enable_code_execution
          (execOf ((code.getD ""))) elapsed with
      | some er => some (some (formatExecutionResult er))
      | none => none
    else some none : Option (Option String)) with
  | none => none
  | some execution_result =>
      let suggestions := generateFollowUpSuggestions intent code execution_result
      let attachments := createAttachments execution_result
      some { message := message
             code := code
             execution_result := execution_result
             code_type := "python"
             attachments := attachments
             follow_up_suggestions := suggestions }

/-- `Executor.format_error_response`. -/
def formatErrorResponse (error_message : String) : FormattedResponse :=
  { message := "I encountered an error while processing your request: " ++
      error_message
    follow_up_suggestions :=
      ["Could you please rephrase your question?",
       "Would you like me to explain what went wrong?",
       "Do you want to try a different approach?"] }

/-- `Executor.format_clarification_response`. -/
def formatClarificationResponse (clarification_question : String)
    (suggestions : List String) : FormattedResponse :=
  { message := clarification_question
    follow_up_suggestions := suggestions }

/-! ## Orchestrator (`src/labverse/agent/assistant_agent.py`)

`run_query` sequences the pipeline inside one `try`, catching any
exception at the boundary.  The session bookkeeping and the clarifier are
embedded concretely; the other stages call components whose own behaviour
depends on external collaborators, so each stage's outcome (normal return
or raise) is an oracle `Except` value, and the catch-all is proved correct
for every combination of outcomes. -/

/-- Complete response from the assistant agent (`AgentResponse`). -/
structure AgentResponse where
  message : String
  code : Option String := none
  execution_result : Option String := none
  code_type : String := "python"
  attachments : List Attachment := []
  follow_up_suggestions : List String := []
  intent : String
  entities : EntityMap := []
  clarification_needed : Bool := false
  confidence : ℚ := 0.0
  processing_time : ℚ := 0.0
deriving DecidableEq

/-- The orchestrator's session map (`self.sessions`). -/
abbrev AgentState : Type := List (String × UserSession)

/-- Python dict assignment `m[k] = v`: replaces in place, appends when new. -/
def assocSet (m : List (String × α)) (k : String) (v : α) :
    List (String × α) :=
  if m.any (fun q => q.1 = k) then
    m.map (fun q => if q.1 = k then (k, v) else q)
  else m ++ [(k, v)]

/-- Python `k in m` / `m[k]` lookup. -/
def assocGet (m : List (String × α)) (k : String) : Option α :=
  (m.find? (fun q => q.1 = k)).map (fun q => q.2)

/-- `UserSession.add_file_focus`. -/
def UserSession.addFileFocus (s : UserSession) (file_path file_name : String)
    (columns : List String) : UserSession :=
  let fc : FileContext :=
    { file_path := file_path, file_name := file_name, columns := columns }
  { s with focused_files := assocSet s.focused_files file_path fc }

/-- The session-focus update loop of `run_query` step 5: focusing a
document whose `file_path` metadata is `None` raises (pydantic rejects
`FileContext(file_path=None)`), and that raise is caught by the
orchestrator's boundary handler like any other. -/
def focusRetrievedDocs (s : UserSession) (docs : List EnrichedDoc) :
    Except String UserSession :=
  docs.foldlM (fun acc d =>
    match d.file_path with
    | some p => .ok (acc.addFileFocus p d.file_name d.columns)
    | none => .error "validation error for FileContext: file_path none is not an allowed value")
    s

/-- `AssistantAgent._calculate_overall_confidence`. -/
def calculateOverallConfidence (intent_confidence entity_confidence
    retrieval_confidence : ℚ) : ℚ :=
  min 1.0 (0.3 * intent_confidence + 0.3 * entity_confidence +
    0.4 * retrieval_confidence)

/-- Outcomes of the externally-dependent pipeline stages of one
`run_query` turn, plus the external uuid/clock values.  `classify`,
`extract`, `retrieve` and `execute` are the outcomes of the corresponding
component calls (`Except.error` = that call raised); `promptStage` stands
for `prompt_builder.build_prompt` (whose value feeds only the completion
call); `llmComplete` is `_query_llm`'s return value (that method catches
internally and returns an error string instead of raising). -/
structure TurnOracles where
  turnId : String
  freshSessionId : String
  elapsed : ℚ
  classify : Except String IntentResult
  extract : Except String EntityExtractionResult
  retrieve : Except String RetrievalResult
  promptStage : Except String Unit
  llmComplete : String
  execute : Except String FormattedResponse

/-- The error response built by `run_query`'s boundary `except` handler.
Note that the handler does not touch the session: in particular it does not
clear `current_turn`. -/
def errorAgentResponse (e : String) (elapsed : ℚ) : AgentResponse :=
  let error_response := formatErrorResponse e
  { message := error_response.message
    follow_up_suggestions := error_response.follow_up_suggestions
    intent := "error"
    confidence := 0.0
    processing_time := elapsed }

/-- `AssistantAgent._get_or_create_session` (session creation inserts the
new session into the map; an existing session is returned unchanged). -/
def getOrCreateSession (st : AgentState) (session_id : Option String)
    (freshSessionId : String) : UserSession × AgentState :=
  match session_id with
  | some sid =>
      if !sid.isEmpty then
        match assocGet st sid with
        | some s => (s, st)
        | none =>
            let s : UserSession := { session_id := sid }
            (s, assocSet st sid s)
      else
        let s : UserSession := { session_id := freshSessionId }
        (s, assocSet st freshSessionId s)
  | none =>
      let s : UserSession := { session_id := freshSessionId }
      (s, assocSet st freshSessionId s)

/-- `AssistantAgent.run_query`: the full turn pipeline with its boundary
exception handler, returning the response together with the session map
after the call. -/
def runQuery (clar : ClarifierState) (o : TurnOracles) (query : String)
    (session_id : Option String) (st : AgentState) :
    AgentResponse × AgentState :=
  let (session, st) := getOrCreateSession st session_id o.freshSessionId
  let session := session.startNewTurn o.turnId query
  let st := assocSet st session.session_id session
  match o.classify with
  | .error e => (errorAgentResponse e o.elapsed, st)
  | .ok intent_result =>
      match o.extract with
      | .error e => (errorAgentResponse e o.elapsed, st)
      | .ok entity_result =>
          let combined_entities :=
            EntityMap.merge intent_result.entities entity_result.structured_entities
          let clarification_result := checkClarificationNeeded clar
            intent_result.primary_intent combined_entities (some session)
          if clarification_result.status = .clarification_needed then
            match session.completeTurn intent_result.primary_intent.value
                combined_entities (clarification_result.question.getD "")
                none none true clarification_result.question with
            | .error e => (errorAgentResponse e o.elapsed, st)
            | .ok session2 =>
                let st := assocSet st session2.session_id session2
                ({ message := clarification_result.question.getD ""
                   intent := intent_result.primary_intent.value
                   entities := combined_entities
                   clarification_needed := true
                   follow_up_suggestions := clarification_result.suggestions
                   confidence := clarification_result.confidence
                   processing_time := o.elapsed }, st)
          else
            match o.retrieve with
            | .error e => (errorAgentResponse e o.elapsed, st)
            | .ok retrieval_result =>
                match focusRetrievedDocs session retrieval_result.documents with
                | .error e => (errorAgentResponse e o.elapsed, st)
                | .ok session2 =>
                    let st := assocSet st session2.session_id session2
                    match o.promptStage with
                    | .error e => (errorAgentResponse e o.elapsed, st)
                    | .ok _ =>
                        match o.execute with
                        | .error e => (errorAgentResponse e o.elapsed, st)
                        | .ok formatted_response =>
                            match session2.completeTurn
                                intent_result.primary_intent.value
                                combined_entities formatted_response.message
                                formatted_response.code
                                formatted_response.execution_result with
                            | .error e => (errorAgentResponse e o.elapsed, st)
                            | .ok session3 =>
                                let st := assocSet st session3.session_id session3
                                let overall_confidence := calculateOverallConfidence
                                  intent_result.confidence entity_result.confidence
                                  retrieval_result.confidence
                                ({ message := formatted_response.message
                                   code := formatted_response.code
                                   execution_result := formatted_response.execution_result
                                   code_type := formatted_response.code_type
                                   attachments := formatted_response.attachments
                                   follow_up_suggestions :=
                                     formatted_response.follow_up_suggestions
                                   intent := intent_result.primary_intent.value
                                   entities := combined_entities
                                   clarification_needed := false
                                   confidence := overall_confidence
                                   processing_time := o.elapsed }, st)

/-! ## Auxiliary notions used only to state and prove properties -/

/-- The sublist of entities whose merge key is `k`. -/
def entitiesWithKey (k : List Char × String) (l : List Entity) : List Entity :=
  l.filter (fun a => entityKey a = k)

/-- Folding the duplicate resolution of `_merge_entities` over the entities
of one key: the running winner after each duplicate. -/
def mergeInto : Option Entity → List Entity → Option Entity
  | m, [] => m
  | m, e :: es =>
      mergeInto (some (match m with | none => e | some a => pickHigher a e)) es

/-- Merge keys of a list of entities are pairwise distinct. -/
def KeysNodup (l : List Entity) : Prop := (l.map entityKey).Nodup

/-- Dictionary invariant of `_merge_entities`' accumulator: at most one
entity per merge key. -/
def GoodDict (acc : List Entity) : Prop :=
  ∀ k, (entitiesWithKey k acc).length ≤ 1

/-- A concrete laboratory-dataset document used to exhibit retriever
behaviour. -/
def docLab : PyDoc :=
  { page_content := "laboratory results dataset"
    metadata := { file_path := some "data/lab_results.csv"
                  file_name := some "lab_results.csv"
                  columns := some "glucose, cholesterol" } }

/-- A concrete non-matching document used to exhibit retriever behaviour. -/
def docOther : PyDoc :=
  { page_content := "meeting notes"
    metadata := { file_path := some "data/notes.txt"
                  file_name := some "notes.txt" } }

/-- Concrete turn-stage outcomes in which intent classification raises
(and no later stage is reached), used to exhibit the orchestrator's error
path. -/
def classifyRaisesOracles : TurnOracles :=
  { turnId := "t1"
    freshSessionId := "s1"
    elapsed := 0
    classify := .error "boom"
    extract := .error "unreached"
    retrieve := .error "unreached"
    promptStage := .ok ()
    llmComplete := ""
    execute := .error "unreached" }

/-! ## Verified properties -/

/-! ### Clarifier claims -/

/-- Every outcome `_check_file_specification` reports carries at least one
missing-info item. -/
theorem checkFileSpecification_missing_ne (c : ClarifierState)
    (entities : EntityMap) (session : Option UserSession) (o : CheckOutcome)
    (h : checkFileSpecification c entities session = some o) :
    o.missing ≠ [] := by
  unfold checkFileSpecification at h
  dsimp only at h
  repeat' split at h
  all_goals (first
    | (cases Option.some.inj h; simp)
    | exact absurd h (by simp))

/-- Every outcome `_check_column_specification` reports carries at least one
missing-info item. -/
theorem checkColumnSpecification_missing_ne (c : ClarifierState)
    (entities : EntityMap) (o : CheckOutcome)
    (h : checkColumnSpecification c entities = some o) :
    o.missing ≠ [] := by
  unfold checkColumnSpecification at h
  dsimp only at h
  repeat' split at h
  all_goals (first
    | (cases Option.some.inj h; simp)
    | exact absurd h (by simp))

/-- Every outcome `_check_statistical_method_specification` reports carries
at least one missing-info item. -/
theorem checkStatisticalMethod_missing_ne (entities : EntityMap)
    (o : CheckOutcome)
    (h : checkStatisticalMethodSpecification entities = some o) :
    o.missing ≠ [] := by
  unfold checkStatisticalMethodSpecification at h
  split at h
  · cases Option.some.inj h; simp
  · exact absurd h (by simp)

/-- Every outcome `_check_visualization_specification` reports carries at
least one missing-info item. -/
theorem checkVisualization_missing_ne (entities : EntityMap)
    (o : CheckOutcome)
    (h : checkVisualizationSpecification entities = some o) :
    o.missing ≠ [] := by
  unfold checkVisualizationSpecification at h
  split at h
  · cases Option.some.inj h; simp
  · exact absurd h (by simp)

/-- C10: `check_clarification_needed` only ever returns the `ready` or
`clarification_needed` status; the `ambiguous` member of the
`ClarificationStatus` enumeration is never produced. -/
theorem checkClarificationNeeded_never_ambiguous (c : ClarifierState)
    (intent : IntentType) (entities : EntityMap)
    (session : Option UserSession) :
    (checkClarificationNeeded c intent entities session).status =
        ClarificationStatus.ready ∨
      (checkClarificationNeeded c intent entities session).status =
        ClarificationStatus.clarification_needed := by
  unfold checkClarificationNeeded
  dsimp only
  repeat' split
  all_goals simp

/-- C5: the clarifier's result has status `clarification_needed` iff its
`missing_info` list is non-empty, has status `ready` iff the file check and
the intent-conditional column/method/visualization checks all pass (report
nothing), and carries confidence 0.8 whenever clarification is needed. -/
theorem checkClarificationNeeded_spec (c : ClarifierState)
    (intent : IntentType) (entities : EntityMap)
    (session : Option UserSession) :
    ((checkClarificationNeeded c intent entities session).status =
        ClarificationStatus.clarification_needed ↔
      (checkClarificationNeeded c intent entities session).missing_info ≠ []) ∧
    ((checkClarificationNeeded c intent entities session).status =
        ClarificationStatus.ready ↔
      (checkFileSpecification c entities session = none ∧
       ((intent = .data_visualization ∨ intent = .statistical_analysis ∨
          intent = .data_cleaning) → checkColumnSpecification c entities = none) ∧
       (intent = .statistical_analysis →
          checkStatisticalMethodSpecification entities = none) ∧
       (intent = .data_visualization →
          checkVisualizationSpecification entities = none))) ∧
    ((checkClarificationNeeded c intent entities session).status =
        ClarificationStatus.clarification_needed →
      (checkClarificationNeeded c intent entities session).confidence = 0.8) := by
  have hf := checkFileSpecification_missing_ne c entities session
  have hc := checkColumnSpecification_missing_ne c entities
  have hm := checkStatisticalMethod_missing_ne entities
  have hv := checkVisualization_missing_ne entities
  unfold checkClarificationNeeded accumCheck
  cases hfe : checkFileSpecification c entities session <;>
    cases hce : checkColumnSpecification c entities <;>
    cases hme : checkStatisticalMethodSpecification entities <;>
    cases hve : checkVisualizationSpecification entities <;>
    cases intent <;>
    simp_all

/-- Witness for C5: a visualization query with no file/column/plot-type
entities and an empty-focus session needs clarification with confidence
0.8. -/
theorem checkClarificationNeeded_spec_witness :
    ((checkClarificationNeeded
        { available_files := ["lab_results.csv", "demographics.csv"] }
        IntentType.data_visualization [] (some { session_id := "w5" })).status =
      ClarificationStatus.clarification_needed) ∧
    ((checkClarificationNeeded
        { available_files := ["lab_results.csv", "demographics.csv"] }
        IntentType.data_visualization [] (some { session_id := "w5" })).confidence =
      0.8) :=
  ⟨by decide,
   (checkClarificationNeeded_spec
      { available_files := ["lab_results.csv", "demographics.csv"] }
      IntentType.data_visualization [] (some { session_id := "w5" })).2.2
     (by decide)⟩

/-! ### Session claims -/

/-- C9: `complete_turn` with no turn in progress is rejected with a
`ValueError` and leaves the conversation history unchanged; a successful
`complete_turn` appends the completed turn as the last history element and
leaves no turn in progress. -/
theorem completeTurn_discipline :
    (∀ (s : UserSession) (i : String) (e : EntityMap) (a : String)
       (cg er : Option String) (cn : Bool) (cq : Option String),
       s.current_turn = none →
       s.completeTurn i e a cg er cn cq = .error "No active conversation turn" ∧
       (s.afterCompleteTurn i e a cg er cn cq).conversation_history =
         s.conversation_history) ∧
    (∀ (s : UserSession) (t : ConversationTurn) (i : String) (e : EntityMap)
       (a : String) (cg er : Option String) (cn : Bool) (cq : Option String),
       s.current_turn = some t →
       ∃ s2 : UserSession,
         s.completeTurn i e a cg er cn cq = .ok s2 ∧
         s2.conversation_history =
           s.conversation_history ++ [completedTurn t i e a cg er cn cq] ∧
         s2.current_turn = none) := by
  constructor
  · intro s i e a cg er cn cq h
    unfold UserSession.completeTurn UserSession.afterCompleteTurn
      UserSession.completeTurn
    rw [h]
    exact ⟨rfl, rfl⟩
  · intro s t i e a cg er cn cq h
    refine ⟨{ s with
      conversation_history := s.conversation_history ++
        [completedTurn t i e a cg er cn cq]
      current_turn := none }, ?_, rfl, rfl⟩
    unfold UserSession.completeTurn
    rw [h]

/-- Witness for C9: both turn-discipline facts at concrete sessions. -/
theorem completeTurn_discipline_witness :
    (({ session_id := "w9" } : UserSession).completeTurn "i" [] "r" none none
        false none = .error "No active conversation turn") ∧
    (∃ s2 : UserSession,
       ({ session_id := "w9",
          current_turn := some { turn_id := "t0", user_query := "q" } } :
            UserSession).completeTurn "i" [] "r" none none false none =
          .ok s2 ∧
       s2.conversation_history =
         [completedTurn { turn_id := "t0", user_query := "q" } "i" [] "r"
           none none false none] ∧
       s2.current_turn = none) := by
  constructor
  · exact (completeTurn_discipline.1 { session_id := "w9" } "i" [] "r" none none
      false none rfl).1
  · obtain ⟨s2, h1, h2, h3⟩ := completeTurn_discipline.2
      { session_id := "w9",
        current_turn := some { turn_id := "t0", user_query := "q" } }
      { turn_id := "t0", user_query := "q" } "i" [] "r" none none false none rfl
    exact ⟨s2, h1, by simpa using h2, h3⟩

/-! ### Entity-merging claims (C8) -/

/-- `pickHigher` returns one of its two arguments, so it preserves a shared
merge key. -/
theorem entityKey_pickHigher (a e : Entity) (h : entityKey a = entityKey e) :
    entityKey (pickHigher a e) = entityKey a := by
  unfold pickHigher
  split <;> simp [h]

/-- The in-place replacement function of `mergeStep` preserves every
entity's merge key. -/
theorem entityKey_replace (e a : Entity) :
    entityKey (if entityKey a = entityKey e then pickHigher a e else a) =
      entityKey a := by
  split
  · next h => rw [entityKey_pickHigher a e h]
  · rfl

/-- Filtering by key commutes with mapping a key-preserving function. -/
theorem entitiesWithKey_map (f : Entity → Entity)
    (hf : ∀ a, entityKey (f a) = entityKey a) (k : List Char × String) :
    ∀ l : List Entity,
      entitiesWithKey k (l.map f) = (entitiesWithKey k l).map f := by
  intro l
  induction l with
  | nil => rfl
  | cons a t ih =>
      by_cases h : entityKey a = k
      · simp only [entitiesWithKey, List.map_cons, List.filter_cons] at *
        rw [hf a]
        simp [h, ih]
      · simp only [entitiesWithKey, List.map_cons, List.filter_cons] at *
        rw [hf a]
        simp [h, ih]

/-- A list with at most one element equals the optional-head list. -/
theorem eq_headD_of_length_le_one {α : Type} (xs : List α)
    (h : xs.length ≤ 1) : xs = xs.head?.toList := by
  match xs with
  | [] => rfl
  | [a] => rfl
  | a :: b :: t => simp at h

/-- Key-`k` entities of `mergeStep acc e` when `e` has key `k`. -/
theorem entitiesWithKey_mergeStep_same (acc : List Entity) (e : Entity)
    (hgood : GoodDict acc) :
    entitiesWithKey (entityKey e) (mergeStep acc e) =
      (match (entitiesWithKey (entityKey e) acc).head? with
        | some a => [pickHigher a e]
        | none => [e]) := by
  unfold mergeStep
  by_cases hany : acc.any (fun a => entityKey a = entityKey e) = true
  · rw [if_pos hany]
    rw [entitiesWithKey_map _ (entityKey_replace e) _ acc]
    have hne : entitiesWithKey (entityKey e) acc ≠ [] := by
      rcases List.any_eq_true.mp hany with ⟨a, ha, hk⟩
      have : a ∈ entitiesWithKey (entityKey e) acc := by
        unfold entitiesWithKey
        exact List.mem_filter.mpr ⟨ha, hk⟩
      exact List.ne_nil_of_mem this
    obtain ⟨a0, ha0⟩ : ∃ a0, entitiesWithKey (entityKey e) acc = [a0] := by
      have hlen := hgood (entityKey e)
      match hx : entitiesWithKey (entityKey e) acc with
      | [] => exact absurd hx hne
      | [a0] => exact ⟨a0, rfl⟩
      | a0 :: a1 :: t => rw [hx] at hlen; simp at hlen
    rw [ha0]
    have hk0 : entityKey a0 = entityKey e := by
      have hm : a0 ∈ entitiesWithKey (entityKey e) acc := by
        rw [ha0]; exact List.mem_singleton.mpr rfl
      unfold entitiesWithKey at hm
      simpa using (List.mem_filter.mp hm).2
    simp [hk0]
  · rw [if_neg hany]
    have hempty : entitiesWithKey (entityKey e) acc = [] := by
      unfold entitiesWithKey
      rw [List.filter_eq_nil_iff]
      intro a ha
      simp only [decide_eq_true_eq]
      intro hk
      exact hany (List.any_eq_true.mpr ⟨a, ha, by simp [hk]⟩)
    unfold entitiesWithKey at *
    rw [List.filter_append, hempty]
    simp

/-- Key-`k` entities of `mergeStep acc e` are unchanged when `e` has a
different key. -/
theorem entitiesWithKey_mergeStep_other (acc : List Entity) (e : Entity)
    (k : List Char × String) (hk : entityKey e ≠ k) :
    entitiesWithKey k (mergeStep acc e) = entitiesWithKey k acc := by
  unfold mergeStep
  by_cases hany : acc.any (fun a => entityKey a = entityKey e) = true
  · rw [if_pos hany]
    rw [entitiesWithKey_map _ (entityKey_replace e) _ acc]
    have : ∀ a ∈ entitiesWithKey k acc,
        (if entityKey a = entityKey e then pickHigher a e else a) = a := by
      intro a ha
      unfold entitiesWithKey at ha
      have hak : entityKey a = k := by simpa using (List.mem_filter.mp ha).2
      rw [if_neg (by rw [hak]; exact fun hh => hk hh.symm)]
    calc (entitiesWithKey k acc).map
          (fun a => if entityKey a = entityKey e then pickHigher a e else a)
        = (entitiesWithKey k acc).map id := List.map_congr_left this
      _ = entitiesWithKey k acc := List.map_id _
  · rw [if_neg hany]
    unfold entitiesWithKey
    rw [List.filter_append]
    have : List.filter (fun a => decide (entityKey a = k)) [e] = [] := by
      simp [hk]
    rw [this, List.append_nil]

/-- `mergeStep` preserves the at-most-one-entity-per-key invariant. -/
theorem goodDict_mergeStep (acc : List Entity) (e : Entity)
    (hgood : GoodDict acc) : GoodDict (mergeStep acc e) := by
  intro k
  by_cases hk : entityKey e = k
  · subst hk
    rw [entitiesWithKey_mergeStep_same acc e hgood]
    match (entitiesWithKey (entityKey e) acc).head? with
    | some a => simp
    | none => simp
  · rw [entitiesWithKey_mergeStep_other acc e k hk]
    exact hgood k

/-- The per-key content of `_merge_entities`' fold: the key-`k` entities of
the result are exactly the running maximum of the key-`k` entities of the
input. -/
theorem foldl_mergeStep_filter (k : List Char × String) :
    ∀ (l acc : List Entity), GoodDict acc →
      entitiesWithKey k (l.foldl mergeStep acc) =
        (mergeInto (entitiesWithKey k acc).head? (entitiesWithKey k l)).toList := by
  intro l
  induction l with
  | nil =>
      intro acc hgood
      have h0 : entitiesWithKey k ([] : List Entity) = [] := rfl
      simp only [List.foldl_nil, h0, mergeInto]
      exact eq_headD_of_length_le_one _ (hgood k)
  | cons e t ih =>
      intro acc hgood
      rw [List.foldl_cons]
      rw [ih (mergeStep acc e) (goodDict_mergeStep acc e hgood)]
      by_cases hk : entityKey e = k
      · subst hk
        rw [entitiesWithKey_mergeStep_same acc e hgood]
        have hcons : entitiesWithKey (entityKey e) (e :: t) =
            e :: entitiesWithKey (entityKey e) t := by
          unfold entitiesWithKey
          simp [List.filter_cons]
        rw [hcons]
        cases (entitiesWithKey (entityKey e) acc).head? with
        | some a => simp [mergeInto]
        | none => simp [mergeInto]
      · rw [entitiesWithKey_mergeStep_other acc e k hk]
        have hcons : entitiesWithKey k (e :: t) = entitiesWithKey k t := by
          unfold entitiesWithKey
          simp [List.filter_cons, hk]
        rw [hcons]

/-- The empty accumulator satisfies the dictionary invariant. -/
theorem goodDict_nil : GoodDict [] := by
  intro k
  simp [entitiesWithKey]

/-- `mergeStep` preserves pairwise-distinct merge keys. -/
theorem keysNodup_mergeStep (acc : List Entity) (e : Entity)
    (h : KeysNodup acc) : KeysNodup (mergeStep acc e) := by
  unfold mergeStep
  by_cases hany : acc.any (fun a => entityKey a = entityKey e) = true
  · rw [if_pos hany]
    unfold KeysNodup at *
    rw [List.map_map]
    have : ∀ a : Entity,
        (entityKey ∘ fun a => if entityKey a = entityKey e then pickHigher a e else a) a =
          entityKey a := fun a => entityKey_replace e a
    rw [List.map_congr_left (fun a _ => this a)]
    exact h
  · rw [if_neg hany]
    unfold KeysNodup at *
    rw [List.map_append]
    simp only [List.map_cons, List.map_nil]
    rw [List.nodup_append]
    refine ⟨h, List.nodup_singleton _, ?_⟩
    intro x hx
    simp only [List.mem_singleton]
    intro hxe
    rcases List.mem_map.mp hx with ⟨a, ha, hka⟩
    exact hany (List.any_eq_true.mpr ⟨a, ha, by simp [hka, hxe]⟩)

/-- Folding `mergeStep` over any list keeps merge keys pairwise distinct. -/
theorem keysNodup_foldl_mergeStep :
    ∀ (l acc : List Entity), KeysNodup acc →
      KeysNodup (l.foldl mergeStep acc) := by
  intro l
  induction l with
  | nil => intro acc h; exact h
  | cons e t ih =>
      intro acc h
      rw [List.foldl_cons]
      exact ih _ (keysNodup_mergeStep acc e h)

/-- Folding `mergeStep` over a list whose keys are fresh and pairwise
distinct just appends it. -/
theorem foldl_mergeStep_of_keysNodup :
    ∀ (l acc : List Entity), KeysNodup (acc ++ l) →
      l.foldl mergeStep acc = acc ++ l := by
  intro l
  induction l with
  | nil => intro acc _; simp
  | cons e t ih =>
      intro acc h
      have hany : acc.any (fun a => entityKey a = entityKey e) = false := by
        rw [List.any_eq_false]
        intro a ha
        simp only [decide_eq_true_eq]
        intro hk
        unfold KeysNodup at h
        rw [List.map_append] at h
        have hdisj := List.disjoint_of_nodup_append h
        exact hdisj (List.mem_map.mpr ⟨a, ha, rfl⟩)
          (by simp only [List.map_cons]
              rw [hk]
              exact List.mem_cons_self _ _)
      rw [List.foldl_cons]
      have hstep : mergeStep acc e = acc ++ [e] := by
        unfold mergeStep
        rw [if_neg (by simp [hany])]
      rw [hstep]
      rw [ih (acc ++ [e])
        (by rw [List.append_assoc, List.singleton_append]; exact h)]
      simp

/-- C8: `_merge_entities` keeps, for a key occurring exactly twice in the
input, exactly one entity for that key — the strictly-higher-confidence one
of the two (the first on a tie) — and is idempotent: merging an
already-merged list returns it unchanged. -/
theorem mergeEntities_spec :
    (∀ (l : List Entity) (k : List Char × String) (e1 e2 : Entity),
       entitiesWithKey k l = [e1, e2] →
       entitiesWithKey k (mergeEntities l) =
         [if e2.confidence > e1.confidence then e2 else e1]) ∧
    (∀ l : List Entity, mergeEntities (mergeEntities l) = mergeEntities l) := by
  constructor
  · intro l k e1 e2 hfilter
    unfold mergeEntities
    rw [foldl_mergeStep_filter k l [] goodDict_nil]
    rw [hfilter]
    simp [entitiesWithKey, mergeInto, pickHigher]
  · intro l
    have hnod : KeysNodup (mergeEntities l) :=
      keysNodup_foldl_mergeStep l [] (by simp [KeysNodup])
    show (mergeEntities l).foldl mergeStep [] = mergeEntities l
    rw [foldl_mergeStep_of_keysNodup (mergeEntities l) [] (by simpa using hnod)]
    simp

/-- Witness for C8: both merge facts at a concrete duplicate pair. -/
theorem mergeEntities_spec_witness :
    (entitiesWithKey (lowerStr "glucose", "columns")
        (mergeEntities
          [{ text := "Glucose", label := "columns", confidence := 0.8 },
           { text := "glucose", label := "columns", confidence := 0.9 }]) =
      [{ text := "glucose", label := "columns", confidence := 0.9 }]) ∧
    (mergeEntities (mergeEntities
        [{ text := "Glucose", label := "columns", confidence := 0.8 },
         { text := "glucose", label := "columns", confidence := 0.9 }]) =
      mergeEntities
        [{ text := "Glucose", label := "columns", confidence := 0.8 },
         { text := "glucose", label := "columns", confidence := 0.9 }]) := by
  constructor
  · have h := mergeEntities_spec.1
      [{ text := "Glucose", label := "columns", confidence := 0.8 },
       { text := "glucose", label := "columns", confidence := 0.9 }]
      (lowerStr "glucose", "columns")
      { text := "Glucose", label := "columns", confidence := 0.8 }
      { text := "glucose", label := "columns", confidence := 0.9 }
      (by rfl)
    rw [h]
    rw [if_pos (by norm_num : (0.9 : ℚ) > 0.8)]
  · exact mergeEntities_spec.2
      [{ text := "Glucose", label := "columns", confidence := 0.8 },
       { text := "glucose", label := "columns", confidence := 0.9 }]

/-! ### Entity-extraction confidence claims (C4) -/

/-- Foldl preserves a property of accumulator elements when every step
does. -/
theorem foldl_preserve {β γ : Type} (step : List β → γ → List β)
    (P : β → Prop) :
    ∀ (l : List γ) (acc : List β),
      (∀ x ∈ acc, P x) →
      (∀ acc2 c, c ∈ l → (∀ x ∈ acc2, P x) → ∀ x ∈ step acc2 c, P x) →
      ∀ x ∈ l.foldl step acc, P x := by
  intro l
  induction l with
  | nil => intro acc ha _ x hx; exact ha x hx
  | cons c t ih =>
      intro acc ha hstep x hx
      rw [List.foldl_cons] at hx
      exact ih (step acc c)
        (hstep acc c (List.mem_cons_self _ _) ha)
        (fun acc2 c2 hc2 => hstep acc2 c2 (List.mem_cons_of_mem _ hc2)) x hx

/-- Pattern extraction only produces entities with confidence 0.8, hence in
[0,1]. -/
theorem extractWithPatterns_bounds (fd : String → String → List ReMatch)
    (query : String) :
    ∀ e ∈ extractWithPatterns fd query,
      0 ≤ e.confidence ∧ e.confidence ≤ 1 := by
  unfold extractWithPatterns
  apply foldl_preserve
  · intro x hx; exact absurd hx (List.not_mem_nil x)
  · intro acc2 fam _ hacc2
    apply foldl_preserve
    · exact hacc2
    · intro acc3 pat _ hacc3 x hx
      rcases List.mem_append.mp hx with h | h
      · exact hacc3 x h
      · rcases List.mem_map.mp h with ⟨m, _, rfl⟩
        constructor <;> norm_num

/-- NLP extraction only produces entities with confidence 0.7 or 0.5, hence
in [0,1]. -/
theorem extractWithNLP_bounds (doc : SpacyDoc) :
    ∀ e ∈ extractWithNLP doc, 0 ≤ e.confidence ∧ e.confidence ≤ 1 := by
  unfold extractWithNLP
  apply foldl_preserve
  · apply foldl_preserve
    · intro x hx; exact absurd hx (List.not_mem_nil x)
    · intro acc2 en _ hacc2 x hx
      cases hm : mapSpacyLabel en.label with
      | some ty =>
          rw [hm] at hx
          rcases List.mem_append.mp hx with h | h
          · exact hacc2 x h
          · rcases List.mem_singleton.mp h with rfl
            constructor <;> norm_num
      | none =>
          rw [hm] at hx
          exact hacc2 x hx
  · intro acc2 ch _ hacc2 x hx
    by_cases hw : wordCount ch.text ≤ 3
    · rw [if_pos hw] at hx
      rcases List.mem_append.mp hx with h | h
      · exact hacc2 x h
      · rcases List.mem_singleton.mp h with rfl
        constructor <;> norm_num
    · rw [if_neg hw] at hx
      exact hacc2 x hx

/-- Context validation maps confidences in [0,1] to confidences in [0,1]:
the boosts are capped at 1 and the discounts multiply by a factor in
(0,1). -/
theorem validateWithContext_bounds (entities : List Entity)
    (ctx : ExtractionContext)
    (h : ∀ e ∈ entities, 0 ≤ e.confidence ∧ e.confidence ≤ 1) :
    ∀ e ∈ validateWithContext entities ctx,
      0 ≤ e.confidence ∧ e.confidence ≤ 1 := by
  unfold validateWithContext
  intro e he
  rcases List.mem_map.mp he with ⟨a, ha, rfl⟩
  obtain ⟨h0, h1⟩ := h a ha
  by_cases hf : a.label = "files"
  · rw [if_pos hf]
    by_cases hm : !(ctx.available_files.filter
        (fun f => ciContains a.text f)).isEmpty
    · rw [if_pos hm]
      dsimp only
      constructor
      · exact le_min (by norm_num) (by linarith)
      · exact le_trans (min_le_left 1.0 _) (by norm_num)
    · rw [if_neg hm]
      dsimp only
      constructor
      · positivity
      · nlinarith
  · rw [if_neg hf]
    by_cases hc : a.label = "columns" ∨ a.label = "potential_column"
    · rw [if_pos hc]
      by_cases hm : !(ctx.available_columns.filter
          (fun col => ciContains a.text col)).isEmpty
      · rw [if_pos hm]
        dsimp only
        constructor
        · exact le_min (by norm_num) (by linarith)
        · exact le_trans (min_le_left 1.0 _) (by norm_num)
      · rw [if_neg hm]
        dsimp only
        constructor
        · positivity
        · nlinarith
    · rw [if_neg hc]
      exact ⟨h0, h1⟩

/-- `pickHigher` returns one of its two arguments. -/
theorem pickHigher_mem (a e : Entity) :
    pickHigher a e = a ∨ pickHigher a e = e := by
  unfold pickHigher
  split
  · right; rfl
  · left; rfl

/-- Every entity surviving `_merge_entities` is one of the input
entities. -/
theorem mergeEntities_mem (l : List Entity) :
    ∀ e ∈ mergeEntities l, e ∈ l := by
  unfold mergeEntities
  apply foldl_preserve
  · intro x hx; exact absurd hx (List.not_mem_nil x)
  · intro acc2 c hc hacc2 x hx
    unfold mergeStep at hx
    split at hx
    · rcases List.mem_map.mp hx with ⟨a, ha, rfl⟩
      split
      · next hk =>
          rcases pickHigher_mem a c with hp | hp <;> rw [hp]
          · exact hacc2 a ha
          · exact hc
      · exact hacc2 a ha
    · rcases List.mem_append.mp hx with h | h
      · exact hacc2 x h
      · rcases List.mem_singleton.mp h with rfl
        exact hc

/-- C4 (amended): pattern extraction, NLP extraction, context validation
and merging all preserve confidence ∈ [0,1]; model-based extraction copies
the model-reported confidence without validation, so every entity returned
by `extract_entities` has confidence in [0,1] provided every model-reported
confidence does. -/
theorem extractEntities_confidence_bounds
    (fd : String → String → List ReMatch) (nlp : Option SpacyDoc)
    (ctx : Option ExtractionContext) (hasLLM : Bool)
    (llmOutcome : Option (List LLMEntitySpec)) (query : String)
    (hllm : ∀ s ∈ llmOutcome.getD [], 0 ≤ s.confidence ∧ s.confidence ≤ 1) :
    ∀ e ∈ (extractEntities fd nlp ctx hasLLM llmOutcome query).entities,
      0 ≤ e.confidence ∧ e.confidence ≤ 1 := by
  have hllm' : ∀ e ∈ extractWithLLM llmOutcome,
      0 ≤ e.confidence ∧ e.confidence ≤ 1 := by
    unfold extractWithLLM
    cases ho : llmOutcome with
    | some specs =>
        intro e he
        rcases List.mem_map.mp he with ⟨s, hs, rfl⟩
        have := hllm s (by rw [ho]; exact hs)
        exact this
    | none => intro e he; exact absurd he (List.not_mem_nil e)
  intro e he
  unfold extractEntities at he
  dsimp only at he
  have he2 := mergeEntities_mem _ e he
  have hstep1 : ∀ x ∈ extractWithPatterns fd query,
      0 ≤ x.confidence ∧ x.confidence ≤ 1 := extractWithPatterns_bounds fd query
  have hstep2 : ∀ x ∈ (match nlp with
      | some doc => extractWithPatterns fd query ++ extractWithNLP doc
      | none => extractWithPatterns fd query),
      0 ≤ x.confidence ∧ x.confidence ≤ 1 := by
    cases nlp with
    | some doc =>
        intro x hx
        rcases List.mem_append.mp hx with h | h
        · exact hstep1 x h
        · exact extractWithNLP_bounds doc x h
    | none => exact hstep1
  have hstep3 : ∀ x ∈ (match ctx with
      | some c => validateWithContext (match nlp with
          | some doc => extractWithPatterns fd query ++ extractWithNLP doc
          | none => extractWithPatterns fd query) c
      | none => (match nlp with
          | some doc => extractWithPatterns fd query ++ extractWithNLP doc
          | none => extractWithPatterns fd query)),
      0 ≤ x.confidence ∧ x.confidence ≤ 1 := by
    cases ctx with
    | some c => exact validateWithContext_bounds _ c hstep2
    | none => exact hstep2
  revert he2
  split
  · intro he2
    rcases List.mem_append.mp he2 with h | h
    · exact hstep3 e h
    · exact hllm' e h
  · intro he2
    exact hstep3 e he2

/-- Witness for C4's amended theorem: with a bounded model-reported
confidence the single entity of a concrete extraction is bounded. -/
theorem extractEntities_confidence_bounds_witness :
    0 ≤ ({ text := "glucose", label := "columns", confidence := 0.9,
           metadata := { source := some "llm" } } : Entity).confidence ∧
    ({ text := "glucose", label := "columns", confidence := 0.9,
       metadata := { source := some "llm" } } : Entity).confidence ≤ 1 :=
  extractEntities_confidence_bounds (fun _ _ => []) none none true
    (some [{ text := "glucose", label := "columns", confidence := 0.9 }]) "x"
    (by intro s hs
        rcases List.mem_singleton.mp hs with rfl
        constructor <;> norm_num)
    { text := "glucose", label := "columns", confidence := 0.9,
      metadata := { source := some "llm" } }
    (by rw [show (extractEntities (fun _ _ => []) none none true
          (some [{ text := "glucose", label := "columns", confidence := 0.9 }])
          "x").entities =
        [{ text := "glucose", label := "columns", confidence := 0.9,
           metadata := { source := some "llm" } }] from rfl]
        exact List.mem_singleton.mpr rfl)

/-- Counterexample for C4 as stated: an out-of-range model-reported
confidence (3/2) flows into the returned entity list unvalidated. -/
theorem extractEntities_confidence_counterexample :
    ∃ e ∈ (extractEntities (fun _ _ => []) none none true
        (some [{ text := "x", label := "columns", confidence := 3/2 }])
        "").entities,
      1 < e.confidence := by
  refine ⟨{ text := "x", label := "columns", confidence := 3/2,
            metadata := { source := some "llm" } }, ?_, by norm_num⟩
  have : (extractEntities (fun _ _ => []) none none true
      (some [{ text := "x", label := "columns", confidence := 3/2 }])
      "").entities =
    [{ text := "x", label := "columns", confidence := 3/2,
       metadata := { source := some "llm" } }] := rfl
  rw [this]
  exact List.mem_singleton.mpr rfl

/-! ### Intent-classification claims (C6, C3) -/

/-- `argmaxFirst` returns an element of the list it reduces. -/
theorem argmaxFirst_mem :
    ∀ (xs : List (IntentType × Nat)) (x : IntentType × Nat),
      argmaxFirst x xs ∈ x :: xs := by
  intro xs
  induction xs with
  | nil => intro x; simp [argmaxFirst]
  | cons y ys ih =>
      intro x
      unfold argmaxFirst at *
      rw [List.foldl_cons]
      have h := ih (if y.2 > x.2 then y else x)
      rcases List.mem_cons.mp h with h2 | h2
      · rw [h2]
        split <;> simp
      · simp [List.mem_cons.mpr (Or.inr (List.mem_cons.mpr (Or.inr h2)))]

/-- `argmaxFirst` dominates every element's score. -/
theorem argmaxFirst_le :
    ∀ (xs : List (IntentType × Nat)) (x : IntentType × Nat),
      ∀ p ∈ x :: xs, p.2 ≤ (argmaxFirst x xs).2 := by
  intro xs
  induction xs with
  | nil =>
      intro x p hp
      rcases List.mem_singleton.mp hp with rfl
      exact le_refl _
  | cons y ys ih =>
      intro x p hp
      unfold argmaxFirst at *
      rw [List.foldl_cons]
      have hbase : p.2 ≤ (if y.2 > x.2 then y else x).2 ∨
          p ∈ (if y.2 > x.2 then y else x) :: ys := by
        rcases List.mem_cons.mp hp with rfl | hp2
        · left; split <;> omega
        · rcases List.mem_cons.mp hp2 with rfl | hp3
          · left; split <;> omega
          · right; exact List.mem_cons_of_mem _ hp3
      rcases hbase with hb | hb
      · exact le_trans hb (ih _ _ (List.mem_cons_self _ _))
      · exact ih _ p hb

/-- C6: the rule-based classification defaults to `search_retrieval` with
confidence 0.3 when no intent scores positively; otherwise the primary
intent attains the maximal positive score `top`, the secondary intents are
exactly the other positively-scoring intents with score at least half of
`top`, and the confidence is `min 0.9 (0.2·top + 0.3)`.  Scores count
pattern matches over the lowercased query (`intentScores`). -/
theorem ruleBasedClassification_spec (cm : String → String → Nat)
    (query : String) :
    (intentScores cm (String.mk (lowerStr query)) = [] →
      ruleBasedClassification cm query =
        { primary_intent := .search_retrieval
          confidence := 0.3
          reasoning := "No specific patterns matched, defaulting to search" }) ∧
    (∀ (x : IntentType × Nat) (xs : List (IntentType × Nat)),
      intentScores cm (String.mk (lowerStr query)) = x :: xs →
      ∃ top : Nat,
        ((ruleBasedClassification cm query).primary_intent, top) ∈ x :: xs ∧
        (∀ p ∈ x :: xs, p.2 ≤ top) ∧
        (∀ i : IntentType,
          i ∈ (ruleBasedClassification cm query).secondary_intents ↔
            ∃ s : Nat, (i, s) ∈ x :: xs ∧
              i ≠ (ruleBasedClassification cm query).primary_intent ∧
              (s : ℚ) ≥ (top : ℚ) * 0.5) ∧
        (ruleBasedClassification cm query).confidence =
          min 0.9 ((top : ℚ) * 0.2 + 0.3)) := by
  constructor
  · intro h
    unfold ruleBasedClassification
    dsimp only
    rw [h]
  · intro x xs h
    have hred : ruleBasedClassification cm query =
        { primary_intent := (argmaxFirst x xs).1
          secondary_intents := ((x :: xs).filter
            (fun p => p.1 ≠ (argmaxFirst x xs).1 ∧
              (p.2 : ℚ) ≥ ((argmaxFirst x xs).2 : ℚ) * 0.5)).map Prod.fst
          confidence := min 0.9 (((argmaxFirst x xs).2 : ℚ) * 0.2 + 0.3)
          reasoning := "Rule-based classification with " ++
            toString (argmaxFirst x xs).2 ++ " pattern matches" } := by
      unfold ruleBasedClassification
      dsimp only
      rw [h]
    refine ⟨(argmaxFirst x xs).2, ?_, argmaxFirst_le xs x, ?_, ?_⟩
    · rw [hred]
      exact argmaxFirst_mem xs x
    · intro i
      rw [hred]
      constructor
      · intro hi
        rcases List.mem_map.mp hi with ⟨p, hpf, rfl⟩
        have hmf := List.mem_filter.mp hpf
        have hcond := of_decide_eq_true hmf.2
        exact ⟨p.2, by rw [Prod.mk.eta]; exact hmf.1, hcond.1, hcond.2⟩
      · intro ⟨s, hmem, hne, hge⟩
        refine List.mem_map.mpr ⟨(i, s), List.mem_filter.mpr ⟨hmem, ?_⟩, rfl⟩
        exact decide_eq_true ⟨hne, hge⟩
    · rw [hred]

/-- Witness for C6: both the default branch (a matcher with no hits) and
the scoring branch (a matcher hitting one visualization pattern once). -/
theorem ruleBasedClassification_spec_witness :
    (ruleBasedClassification (fun _ _ => 0) "hello" =
      { primary_intent := .search_retrieval
        confidence := 0.3
        reasoning := "No specific patterns matched, defaulting to search" }) ∧
    (∃ top : Nat,
      ((ruleBasedClassification
          (fun p _ => if p = "\\b(plot|graph|chart|visualize|show)\\b" then 1
            else 0) "show me the plot").primary_intent, top) ∈
        [(IntentType.data_visualization, 1)] ∧
      (∀ p ∈ [(IntentType.data_visualization, 1)], p.2 ≤ top) ∧
      (∀ i : IntentType,
        i ∈ (ruleBasedClassification
            (fun p _ => if p = "\\b(plot|graph|chart|visualize|show)\\b" then 1
              else 0) "show me the plot").secondary_intents ↔
          ∃ s : Nat, (i, s) ∈ [(IntentType.data_visualization, 1)] ∧
            i ≠ (ruleBasedClassification
                (fun p _ => if p = "\\b(plot|graph|chart|visualize|show)\\b"
                  then 1 else 0) "show me the plot").primary_intent ∧
            (s : ℚ) ≥ (top : ℚ) * 0.5) ∧
      (ruleBasedClassification
          (fun p _ => if p = "\\b(plot|graph|chart|visualize|show)\\b" then 1
            else 0) "show me the plot").confidence =
        min 0.9 ((top : ℚ) * 0.2 + 0.3)) :=
  ⟨(ruleBasedClassification_spec (fun _ _ => 0) "hello").1 rfl,
   (ruleBasedClassification_spec
      (fun p _ => if p = "\\b(plot|graph|chart|visualize|show)\\b" then 1
        else 0) "show me the plot").2
     (IntentType.data_visualization, 1) [] rfl⟩

/-- C3 (amended): when both the rule-based and the model-based classifier
are consulted (a model is configured and the rule-based confidence is
below 0.7) and the model reply parses, the returned result is that of
whichever of the two methods yields the strictly higher confidence
(the rule-based result otherwise); agreement on the primary intent does not
strictly increase the confidence — when the agreeing model confidence is
not higher, the returned confidence equals the rule-based confidence
unchanged. -/
theorem classifyIntent_selection (cm : String → String → Nat)
    (query : String) (lr : IntentResult) :
    ((ruleBasedClassification cm query).confidence < 0.7 →
      classifyIntent true (some lr) cm query =
        (if lr.confidence > (ruleBasedClassification cm query).confidence
          then lr else ruleBasedClassification cm query)) ∧
    ((ruleBasedClassification cm query).confidence < 0.7 →
      lr.primary_intent = (ruleBasedClassification cm query).primary_intent →
      lr.confidence ≤ (ruleBasedClassification cm query).confidence →
      (classifyIntent true (some lr) cm query).confidence =
        (ruleBasedClassification cm query).confidence) := by
  have hsel : (ruleBasedClassification cm query).confidence < 0.7 →
      classifyIntent true (some lr) cm query =
        (if lr.confidence > (ruleBasedClassification cm query).confidence
          then lr else ruleBasedClassification cm query) := by
    intro hcond
    unfold classifyIntent
    dsimp only
    rw [if_pos ⟨rfl, hcond⟩]
  refine ⟨hsel, ?_⟩
  intro hcond _ hle
  rw [hsel hcond]
  rw [if_neg (not_lt.mpr hle)]

/-- Witness for C3's amended theorem: on the query "hello" (no intent
pattern matches, rule-based confidence 0.3) a strictly more confident model
result is selected, and an agreeing model result with lower confidence
leaves the returned confidence at the rule-based 0.3. -/
theorem classifyIntent_selection_witness :
    (classifyIntent true
        (some { primary_intent := .data_visualization, confidence := 0.9,
                reasoning := "llm" }) (fun _ _ => 0) "hello" =
      { primary_intent := .data_visualization, confidence := 0.9,
        reasoning := "llm" }) ∧
    ((classifyIntent true
        (some { primary_intent := .search_retrieval, confidence := 0.25,
                reasoning := "llm" }) (fun _ _ => 0) "hello").confidence =
      (ruleBasedClassification (fun _ _ => 0) "hello").confidence) := by
  have hconf : (ruleBasedClassification (fun _ _ => 0) "hello").confidence =
      0.3 := rfl
  constructor
  · have h := (classifyIntent_selection (fun _ _ => 0) "hello"
      { primary_intent := .data_visualization, confidence := 0.9,
        reasoning := "llm" }).1 (by rw [hconf]; norm_num)
    rw [h]
    rw [if_pos (by rw [hconf]; norm_num)]
  · exact (classifyIntent_selection (fun _ _ => 0) "hello"
      { primary_intent := .search_retrieval, confidence := 0.25,
        reasoning := "llm" }).2 (by rw [hconf]; norm_num) rfl
      (by rw [hconf]; norm_num)

/-- Counterexample for C3 as stated, at a real program trace: `re.findall`
finds no match of any intent-table pattern in the query "hello" (no pattern
keyword occurs in it as a word), so the constant-zero match counter is the
regex engine's true behaviour on this query and the rule-based result
really is `search_retrieval` with confidence 0.3 (< 0.7, so the model is
consulted).  A model reply agreeing on `search_retrieval` with confidence
0.25 then yields a returned confidence equal to the rule-based confidence —
it does not strictly increase. -/
theorem classifyIntent_no_boost_counterexample :
    ({ primary_intent := .search_retrieval, confidence := 0.25,
       reasoning := "llm" } : IntentResult).primary_intent =
      (ruleBasedClassification (fun _ _ => 0) "hello").primary_intent ∧
    (ruleBasedClassification (fun _ _ => 0) "hello").confidence = 0.3 ∧
    (classifyIntent true
        (some { primary_intent := .search_retrieval, confidence := 0.25,
                reasoning := "llm" }) (fun _ _ => 0) "hello").confidence =
      (ruleBasedClassification (fun _ _ => 0) "hello").confidence := by
  have hconf : (ruleBasedClassification (fun _ _ => 0) "hello").confidence =
      0.3 := rfl
  refine ⟨rfl, hconf, ?_⟩
  unfold classifyIntent
  dsimp only
  rw [if_pos ⟨rfl, by rw [hconf]; norm_num⟩]
  rw [if_neg (by rw [hconf]; norm_num)]

/-! ### Retriever claims (C7) -/

/-- `insertDesc` inserts its argument and keeps the rest. -/
theorem mem_insertDesc {x z : PyDoc × ℚ} :
    ∀ {ys : List (PyDoc × ℚ)}, z ∈ insertDesc x ys → z = x ∨ z ∈ ys := by
  intro ys
  induction ys with
  | nil =>
      intro h
      rcases List.mem_singleton.mp h with rfl
      exact Or.inl rfl
  | cons y ys ih =>
      intro h
      unfold insertDesc at h
      split at h
      · rcases List.mem_cons.mp h with rfl | h2
        · exact Or.inl rfl
        · exact Or.inr h2
      · rcases List.mem_cons.mp h with rfl | h2
        · exact Or.inr (List.mem_cons_self _ _)
        · rcases ih h2 with h3 | h3
          · exact Or.inl h3
          · exact Or.inr (List.mem_cons_of_mem _ h3)

/-- Ranking permutes: every ranked document came from the input list. -/
theorem mem_rankDocuments (docs : List PyDoc) (entities : EntityMap)
    (d : PyDoc) (h : d ∈ rankDocuments docs entities) : d ∈ docs := by
  unfold rankDocuments at h
  rcases List.mem_map.mp h with ⟨z, hz, rfl⟩
  have : z.1 ∈ docs := by
    refine foldl_preserve _ (fun w => w.1 ∈ docs) docs []
      (fun x hx => absurd hx (List.not_mem_nil x)) ?_ z hz
    intro acc2 c hc hacc2 w hw
    rcases mem_insertDesc hw with rfl | h2
    · exact hc
    · exact hacc2 w h2
  exact this

/-- The column half of the entity filter never adds documents. -/
theorem mem_columnEntityFilter (docs : List PyDoc) (cols : List String)
    (d : PyDoc) (h : d ∈ columnEntityFilter docs cols) : d ∈ docs := by
  unfold columnEntityFilter at h
  split at h
  · exact h
  · dsimp only at h
    split at h
    · exact h
    · exact List.mem_filter.mp h |>.1

/-- A non-empty file-entity list with at least one matching candidate makes
the file filter keep exactly the matching documents. -/
theorem fileEntityFilter_of_match (docs : List PyDoc)
    (fileEntities : List String) (hne : fileEntities ≠ [])
    (hmatch : ∃ d ∈ docs, docMatchesFileEntities fileEntities d = true) :
    fileEntityFilter docs fileEntities =
      docs.filter (docMatchesFileEntities fileEntities) := by
  unfold fileEntityFilter
  rw [if_neg (by simpa using hne)]
  rcases hmatch with ⟨d, hd, hmd⟩
  have : docs.filter (docMatchesFileEntities fileEntities) ≠ [] :=
    List.ne_nil_of_mem (List.mem_filter.mpr ⟨hd, hmd⟩)
  rw [if_neg (by simpa using this)]

/-- With no matching candidate, the file filter falls back to the whole
candidate list. -/
theorem fileEntityFilter_of_no_match (docs : List PyDoc)
    (fileEntities : List String)
    (hnone : ∀ d ∈ docs, docMatchesFileEntities fileEntities d = false) :
    fileEntityFilter docs fileEntities = docs := by
  unfold fileEntityFilter
  by_cases hne : fileEntities.isEmpty
  · rw [if_pos hne]
  · rw [if_neg hne]
    have : docs.filter (docMatchesFileEntities fileEntities) = [] := by
      rw [List.filter_eq_nil_iff]
      intro d hd
      simp [hnone d hd]
    rw [this]
    simp

/-- Enrichment preserves the document's file name. -/
theorem enrichDoc_file_name (statOf : String → Option (Int × ℚ))
    (sampleOf : String → Option SampleData) (d : PyDoc) :
    (enrichDoc statOf sampleOf d).file_name =
      d.metadata.file_name.getD "" := by
  unfold enrichDoc
  dsimp only
  repeat' split
  all_goals rfl

/-- An empty entity map yields empty entity lists. -/
theorem getD_nil (k : String) : EntityMap.getD [] k = [] := rfl

/-- C7: the retriever returns at most `max_results` documents; when file
entities are supplied and at least one semantic-search candidate's file
name contains one of them (case-insensitively), every returned document's
file name contains some supplied file entity; and when no candidate
matches, the file filter passes the whole candidate list through. -/
theorem retrieveContext_spec (search : Except String (List PyDoc))
    (statOf : String → Option (Int × ℚ))
    (sampleOf : String → Option SampleData) (entities : EntityMap)
    (filters : Option RetrievalFilters) (max_results : Nat) :
    ((retrieveContext search statOf sampleOf entities filters
        max_results).documents.length ≤ max_results) ∧
    (entities.getD "files" ≠ [] →
      (∃ d ∈ semanticSearch search (max_results * 2),
        docMatchesFileEntities (entities.getD "files") d = true) →
      ∀ ed ∈ (retrieveContext search statOf sampleOf entities filters
          max_results).documents,
        ∃ f ∈ entities.getD "files", ciContains f ed.file_name = true) ∧
    (entities.getD "files" ≠ [] →
      (∀ d ∈ semanticSearch search (max_results * 2),
        docMatchesFileEntities (entities.getD "files") d = false) →
      fileEntityFilter (semanticSearch search (max_results * 2))
        (entities.getD "files") = semanticSearch search (max_results * 2)) := by
  refine ⟨?_, ?_, ?_⟩
  · unfold retrieveContext
    dsimp only
    rw [List.length_map]
    exact List.length_take_le _ _
  · intro hne hmatch ed hed
    unfold retrieveContext at hed
    dsimp only at hed
    rcases List.mem_map.mp hed with ⟨d0, hd0, rfl⟩
    have hd1 := List.mem_of_mem_take hd0
    have hd2 := mem_rankDocuments _ _ _ hd1
    have hd3 : d0 ∈ applyEntityFilters
        (semanticSearch search (max_results * 2)) entities := by
      revert hd2
      cases filters with
      | some f => exact fun h => (List.mem_filter.mp h).1
      | none => exact id
    have hentne : entities ≠ [] := by
      intro h0
      rw [h0] at hne
      exact hne (getD_nil "files")
    unfold applyEntityFilters at hd3
    rw [if_neg (by simpa using hentne)] at hd3
    have hd4 := mem_columnEntityFilter _ _ _ hd3
    rw [fileEntityFilter_of_match _ _ hne hmatch] at hd4
    have hmd := (List.mem_filter.mp hd4).2
    unfold docMatchesFileEntities at hmd
    rcases List.any_eq_true.mp hmd with ⟨f, hf, hci⟩
    refine ⟨f, hf, ?_⟩
    rw [enrichDoc_file_name]
    simpa using hci
  · intro _ hnone
    exact fileEntityFilter_of_no_match _ _ hnone

/-- Witness for C7: a two-document candidate set where exactly one document
matches the supplied file entity. -/
theorem retrieveContext_spec_witness :
    ((retrieveContext (.ok [docLab, docOther]) (fun _ => none) (fun _ => none)
        [("files", ["lab"])] none 3).documents.length ≤ 3) ∧
    (∀ ed ∈ (retrieveContext (.ok [docLab, docOther]) (fun _ => none)
        (fun _ => none) [("files", ["lab"])] none 3).documents,
      ∃ f ∈ EntityMap.getD [("files", ["lab"])] "files",
        ciContains f ed.file_name = true) := by
  refine ⟨(retrieveContext_spec (.ok [docLab, docOther]) (fun _ => none)
    (fun _ => none) [("files", ["lab"])] none 3).1, ?_⟩
  exact (retrieveContext_spec (.ok [docLab, docOther]) (fun _ => none)
    (fun _ => none) [("files", ["lab"])] none 3).2.1
    (by decide)
    ⟨docLab, by decide, by decide⟩

/-! ### Executor timeout claim (C1) -/

/-- C1 (failing input): on a response whose fenced code block never
terminates, `process_llm_response` never returns — `_execute_code_safely`
invokes `exec` with no timeout mechanism (the `timeout` constructor
argument is stored but never read), so the diverging `exec` behaviour
propagates to the whole call instead of being cut off at the configured
timeout. -/
theorem processLLMResponse_no_timeout :
    processLLMResponse true (fun _ => ExecBehavior.diverge) 0
      "```python\nwhile True:\n    pass\n```" "code_generation" = none := by
  rfl

/-! ### Orchestrator error-path claim (C2) -/

/-- C2 (failing input): when a pipeline stage raises after the turn was
started (here: intent classification), `run_query` does return the
zero-confidence `"error"`-intent response, but the boundary handler never
clears the session's `current_turn`, so a turn remains in progress for that
session. -/
theorem runQuery_error_leaves_turn_marker :
    ((runQuery {} classifyRaisesOracles "show data" none []).1.intent =
      "error") ∧
    ((runQuery {} classifyRaisesOracles "show data" none []).1.confidence =
      0) ∧
    ((assocGet (runQuery {} classifyRaisesOracles "show data" none []).2
        "s1").map (fun s => s.current_turn.isSome) = some true) := by
  refine ⟨rfl, ?_, rfl⟩
  have h : (runQuery {} classifyRaisesOracles "show data" none
      []).1.confidence = 0.0 := rfl
  rw [h]
  norm_num

end LabVerse
